import Mathlib

/-!
Verification of the RiskGuard risk-enforcement engine (RiskguardV1.1).

Shallow embedding of the four rule modules and the shared position closer:
  - limits/limits.py        (aggregate risk limiter)
  - limits/guard.py         (position closer, escalation protocol)
  - limits/dd_kill.py       (drawdown kill switch, unlock)
  - limits/per_trade_interactive.py (per-trade interactive enforcer)

Python floats are embedded as rationals (the tolerance literal 1e-9 is
embedded as the exact rational 1 / 1000000000); machine timestamps are
rationals; the MT5 terminal,
the automation-toggle capability and the Telegram channel are environments
passed explicitly.  Persisted JSON documents become Lean structures whose
optional keys are Option fields.
-/

namespace RiskGuard

/-! ## Aggregate Risk Limiter - limits/limits.py -/

/-- Persisted aggregate-risk state (file .riskguard_limits.json):
keys baseline_tickets (stored as a sorted list of distinct ticket ids,
embedded as a finite set), block_attempts, risk_block_active. -/
structure AggState where
  baseline : Finset ℤ
  attempts : ℤ
  blocked : Bool
deriving DecidableEq

/-- Outcome of one call of enforce_aggregate_risk: the persisted state after
the call, and the set of tickets passed to the Position Closer. -/
structure AggResult where
  state : AggState
  closeCalled : Finset ℤ
deriving DecidableEq

/-- Embedding of limits/limits.py enforce_aggregate_risk (lines 41-135).
Inputs: total = snapshot exposure total_risk_pct, current = ticket ids of the
snapshot positions, threshold = threshold_pct, maxAttempts =
max_block_attempts, st = persisted state.  The three branches are, in source
order: empty baseline (first execution), total at or below threshold plus the
1e-9 float tolerance, and the above-threshold branch that closes every ticket
absent from the baseline, adds one attempt per new ticket, and activates the
logical block once attempts reach maxAttempts. -/
def enforce_aggregate_risk (total : ℚ) (current : Finset ℤ)
    (threshold : ℚ) (maxAttempts : ℤ) (st : AggState) : AggResult :=
  if st.baseline = ∅ then
    ⟨⟨current, 0, false⟩, ∅⟩
  else if total ≤ threshold + 1 / 1000000000 then
    ⟨⟨current, 0, false⟩, ∅⟩
  else
    let newT := current \ st.baseline
    let attempts' := st.attempts + newT.card
    let blocked' := st.blocked || decide (attempts' ≥ maxAttempts)
    ⟨⟨st.baseline, attempts', blocked'⟩, newT⟩

/-- Helper fact: the float-comparison tolerance 1e-9 is nonnegative, so a
total at or below the threshold is also at or below threshold plus tolerance. -/
theorem le_threshold_tol {total threshold : ℚ} (h : total ≤ threshold) :
    total ≤ threshold + 1 / 1000000000 :=
  le_trans h (le_add_of_nonneg_right (by positivity))

/-- C3: with a non-empty persisted baseline and total_risk_pct above the
threshold (beyond the code's 1e-9 float-comparison tolerance), one Enforce
call passes exactly the tickets present in the snapshot but absent from the
baseline to the Position Closer, raises the persisted attempts counter by
exactly the number of those tickets, leaves the baseline unchanged, and
blocked is active afterwards exactly when it already was or the cumulative
attempts counter has reached maxAttempts - so blocked first becomes true on
the call where the counter first reaches maxAttempts. -/
theorem aggregate_above_threshold_step (total threshold : ℚ) (current : Finset ℤ)
    (maxAttempts : ℤ) (st : AggState)
    (hb : st.baseline ≠ ∅)
    (ht : threshold + 1 / 1000000000 < total) :
    (enforce_aggregate_risk total current threshold maxAttempts st).closeCalled
        = current \ st.baseline ∧
    (enforce_aggregate_risk total current threshold maxAttempts st).state.attempts
        = st.attempts + (current \ st.baseline).card ∧
    (enforce_aggregate_risk total current threshold maxAttempts st).state.baseline
        = st.baseline ∧
    ((enforce_aggregate_risk total current threshold maxAttempts st).state.blocked = true ↔
      (st.blocked = true ∨ st.attempts + (current \ st.baseline).card ≥ maxAttempts)) := by
  unfold enforce_aggregate_risk
  rw [if_neg hb, if_neg (not_le.mpr ht)]
  refine ⟨rfl, rfl, rfl, ?_⟩
  simp

/-- Witness for C3, running the spec scenario: threshold 5, maxAttempts 3,
risk constant at 7, baseline is the single ticket 10, and three successive
ticks each introduce one new ticket (11, then 12, then 13).  Attempts go
1, 2, 3; blocked stays false on the first two ticks and first becomes true
on the third; each new ticket is passed to the closer; the baseline never
changes. -/
theorem aggregate_above_threshold_step_witness :
    (⟨{10}, 0, false⟩ : AggState).baseline ≠ ∅ ∧
    (5 : ℚ) + 1 / 1000000000 < 7 ∧
    (enforce_aggregate_risk 7 {10, 11} 5 3 ⟨{10}, 0, false⟩).closeCalled
      = ({10, 11} : Finset ℤ) \ ({10} : Finset ℤ) ∧
    (enforce_aggregate_risk 7 {10, 11} 5 3 ⟨{10}, 0, false⟩).state
      = ⟨{10}, 1, false⟩ ∧
    (enforce_aggregate_risk 7 {10, 12} 5 3 ⟨{10}, 1, false⟩).state
      = ⟨{10}, 2, false⟩ ∧
    (enforce_aggregate_risk 7 {10, 13} 5 3 ⟨{10}, 2, false⟩).state
      = ⟨{10}, 3, true⟩ := by
  have h1 : (⟨{10}, 0, false⟩ : AggState).baseline ≠ ∅ := by decide
  have h2 : (5 : ℚ) + 1 / 1000000000 < 7 := by norm_num
  exact ⟨h1, h2,
    (aggregate_above_threshold_step 7 5 {10, 11} 3 ⟨{10}, 0, false⟩ h1 h2).1,
    by norm_num [enforce_aggregate_risk]; decide,
    by norm_num [enforce_aggregate_risk]; decide,
    by norm_num [enforce_aggregate_risk]; decide⟩

/-- C4: whenever total_risk_pct is at or below the threshold, the persisted
state after the Enforce call has attempts 0, blocked false, and baseline
exactly the current ticket set; no ticket is passed to the closer; repeating
the call on the same snapshot changes nothing (idempotence); and the
at-or-below-threshold branch is the sole way blocked is cleared: any call on
a blocked state with non-empty baseline that ends unblocked had total at or
below threshold plus the 1e-9 tolerance. -/
theorem aggregate_ok_path_resets (total threshold : ℚ) (current : Finset ℤ)
    (maxAttempts : ℤ) (st : AggState)
    (h : total ≤ threshold) :
    (enforce_aggregate_risk total current threshold maxAttempts st).state
        = ⟨current, 0, false⟩ ∧
    (enforce_aggregate_risk total current threshold maxAttempts st).closeCalled = ∅ ∧
    enforce_aggregate_risk total current threshold maxAttempts
        (enforce_aggregate_risk total current threshold maxAttempts st).state
      = enforce_aggregate_risk total current threshold maxAttempts st ∧
    (∀ (total' : ℚ) (current' : Finset ℤ) (st' : AggState),
      st'.blocked = true → st'.baseline ≠ ∅ →
      (enforce_aggregate_risk total' current' threshold maxAttempts st').state.blocked
        = false →
      total' ≤ threshold + 1 / 1000000000) := by
  have h9 := le_threshold_tol h
  have hfst : enforce_aggregate_risk total current threshold maxAttempts st
      = ⟨⟨current, 0, false⟩, ∅⟩ := by
    unfold enforce_aggregate_risk
    by_cases hb : st.baseline = ∅
    · rw [if_pos hb]
    · rw [if_neg hb, if_pos h9]
  refine ⟨by rw [hfst], by rw [hfst], ?_, ?_⟩
  · have hsnd : enforce_aggregate_risk total current threshold maxAttempts
        ⟨current, 0, false⟩ = ⟨⟨current, 0, false⟩, ∅⟩ := by
      unfold enforce_aggregate_risk
      split_ifs with h1
      · rfl
      · rfl
    rw [hfst]
    exact hsnd
  · intro total' current' st' hbl hbase hafter
    unfold enforce_aggregate_risk at hafter
    rw [if_neg hbase] at hafter
    by_cases ht : total' ≤ threshold + 1 / 1000000000
    · exact ht
    · rw [if_neg ht] at hafter
      simp [hbl] at hafter

/-- Witness for C4 at a concrete input: total 4 at threshold 5 with snapshot
tickets 1 and 2 starting from a blocked state with baseline ticket 9. -/
theorem aggregate_ok_path_resets_witness :
    (4 : ℚ) ≤ 5 ∧
    (enforce_aggregate_risk 4 {1, 2} 5 3 ⟨{9}, 7, true⟩).state
      = ⟨{1, 2}, 0, false⟩ := by
  have h4 : (4 : ℚ) ≤ 5 := by norm_num
  exact ⟨h4, (aggregate_ok_path_resets 4 5 {1, 2} 3 ⟨{9}, 7, true⟩ h4).1⟩

/-- C10: whenever the persisted baseline ticket set is empty, Enforce takes
the first-invocation path: it captures all currently open tickets as the new
baseline, sets attempts to 0 and blocked to false, and passes no ticket to
the Position Closer - with no hypothesis on total_risk_pct, so this holds
even when the total exceeds the threshold. -/
theorem aggregate_empty_baseline_cold_start (total threshold : ℚ)
    (current : Finset ℤ) (maxAttempts : ℤ) (st : AggState)
    (hb : st.baseline = ∅) :
    (enforce_aggregate_risk total current threshold maxAttempts st).state
        = ⟨current, 0, false⟩ ∧
    (enforce_aggregate_risk total current threshold maxAttempts st).closeCalled = ∅ := by
  unfold enforce_aggregate_risk
  rw [if_pos hb]
  exact ⟨rfl, rfl⟩

/-- Witness for C10: empty baseline, total 7 strictly above threshold 5,
one open ticket 42 - the call rebaselines to the ticket 42 and closes
nothing. -/
theorem aggregate_empty_baseline_cold_start_witness :
    (⟨∅, 0, false⟩ : AggState).baseline = ∅ ∧ (5 : ℚ) < 7 ∧
    (enforce_aggregate_risk 7 {42} 5 3 ⟨∅, 0, false⟩).state = ⟨{42}, 0, false⟩ ∧
    (enforce_aggregate_risk 7 {42} 5 3 ⟨∅, 0, false⟩).closeCalled = ∅ := by
  have hb : (⟨∅, 0, false⟩ : AggState).baseline = ∅ := rfl
  have hc := aggregate_empty_baseline_cold_start 7 5 {42} 3 ⟨∅, 0, false⟩ hb
  exact ⟨hb, by norm_num, hc.1, hc.2⟩

/-! ## Position Closer - limits/guard.py

The MT5 terminal is modelled as an environment: the n-th call of
symbol_info_tick during one invocation returns price n (none when there is
no tick, which in the source raises and aborts the invocation), the n-th
order_send returns send n (none models an order_send returning None), and
last_error after the n-th send returns lastErr n.  The collaborator calls
the closer makes are recorded in an event trace: price fetches, order sends
(with the price, fill mode and deviation of the request), and the
ensure_autotrading_on / ensure_autotrading_off toggle calls. -/

/-- Constant mt5.TRADE_RETCODE_DONE. -/
def TRADE_RETCODE_DONE : ℤ := 10009

/-- Fields of an mt5.order_send result that the closer reads. -/
structure MT5Result where
  retcode : ℤ
  comment : String
deriving DecidableEq

/-- Payload assembled after an order_send: the result (None possible) and
the first component of mt5.last_error(). -/
structure Payload where
  result : Option MT5Result
  lastError : ℤ
deriving DecidableEq

/-- Order fill modes used by the closer (ORDER_FILLING_IOC / _FOK). -/
inductive Filling
  | ioc
  | fok
deriving DecidableEq

/-- Observable collaborator events of one closer invocation. -/
inductive Ev
  | fetch (price : Option ℚ)
  | send (price : ℚ) (filling : Filling) (deviation : ℤ)
  | enableAT
  | disableAT
deriving DecidableEq

/-- External environment of one closer invocation. -/
structure Env where
  symbolOk : Bool
  price : ℕ → Option ℚ
  send : ℕ → Option MT5Result
  lastErr : ℕ → ℤ

/-- Test result and result.retcode == mt5.TRADE_RETCODE_DONE. -/
def isDone (r : Option MT5Result) : Bool :=
  match r with
  | some res => res.retcode == TRADE_RETCODE_DONE
  | none => false

/-- Substring test on character lists (Python operator in for strings). -/
def listContains (pat : List Char) : List Char → Bool
  | [] => pat.isEmpty
  | c :: rest => pat.isPrefixOf (c :: rest) || listContains pat rest

/-- Embedding of guard.py _is_autotrading_disabled (lines 155-168): the
retcode is 10027 or 10028, or the lower-cased comment contains the text
"autotrading disabled", or the last-error code is 10027 or 10028 - any one
match suffices.  A missing result contributes retcode None and comment "". -/
def isAutotradingDisabled (p : Payload) : Bool :=
  let rc := p.result.map MT5Result.retcode
  let cm := ((p.result.map MT5Result.comment).getD "").data.map Char.toLower
  (rc == some 10027) || (rc == some 10028)
    || listContains ("autotrading disabled".data) cm
    || (p.lastError == 10027) || (p.lastError == 10028)

/-- Result of one round of guard.py _order_send_tirano: success flag, the
payload the caller inspects, and the order-send events of the round. -/
structure SendRound where
  ok : Bool
  payload : Payload
  trace : List Ev

/-- Embedding of guard.py _order_send_tirano (lines 100-152): up to 3
attempts with fill mode IOC and deviation 50, 150 ms apart, then one forced
attempt with fill mode FOK and deviation 9999.  The request price reqPrice
is part of the request dict built by the caller and is reused unchanged by
every attempt of the round.  k is the index of the first order_send of this
round in the environment.  On a successful attempt the round stops and
returns that attempt's payload; otherwise the returned payload is the
forced attempt's. -/
def orderSendTirano (env : Env) (k : ℕ) (reqPrice : ℚ) : SendRound :=
  let eIOC := Ev.send reqPrice Filling.ioc 50
  let eFOK := Ev.send reqPrice Filling.fok 9999
  let r1 := env.send k
  if isDone r1 then ⟨true, ⟨r1, env.lastErr k⟩, [eIOC]⟩ else
  let r2 := env.send (k + 1)
  if isDone r2 then ⟨true, ⟨r2, env.lastErr (k + 1)⟩, [eIOC, eIOC]⟩ else
  let r3 := env.send (k + 2)
  if isDone r3 then ⟨true, ⟨r3, env.lastErr (k + 2)⟩, [eIOC, eIOC, eIOC]⟩ else
  let r4 := env.send (k + 3)
  ⟨isDone r4, ⟨r4, env.lastErr (k + 3)⟩, [eIOC, eIOC, eIOC, eFOK]⟩

/-- Outcome of guard.py close_position_full: success flag, the reported
mode string, and the collaborator-event trace of the invocation. -/
structure CloseOutcome where
  ok : Bool
  mode : String
  trace : List Ev

/-- Embedding of guard.py close_position_full (lines 173-224).  The helper
_req re-fetches the market price each time it is called and puts it in the
request; close_position_full calls _req once before the direct round and
once before the toggled retry round.  A failed direct round whose payload
does not indicate AutoTrading-disabled returns the error as is; otherwise
the closer calls ensure_autotrading_on, retries one round, and calls
ensure_autotrading_off.  A missing tick (price fetch none) raises in the
source and is caught by the outer handler, aborting the invocation with ok
false - in particular a missing tick before the retry round aborts after
the enable-toggle call and skips the disable-toggle call.  Mode "error"
stands for the exception dict of the source's except branch. -/
def close_position_full (env : Env) : CloseOutcome :=
  if env.symbolOk = false then ⟨false, "error", []⟩ else
  match env.price 0 with
  | none => ⟨false, "error", [Ev.fetch none]⟩
  | some price1 =>
    let r1 := orderSendTirano env 0 price1
    let trace1 := Ev.fetch (some price1) :: r1.trace
    if r1.ok = true then ⟨true, "api", trace1⟩
    else if isAutotradingDisabled r1.payload = false then ⟨false, "api", trace1⟩
    else
      match env.price 1 with
      | none => ⟨false, "error", trace1 ++ [Ev.enableAT, Ev.fetch none]⟩
      | some price2 =>
        let r2 := orderSendTirano env 4 price2
        ⟨r2.ok, "api+toggle_hotkey",
          trace1 ++ Ev.enableAT :: Ev.fetch (some price2)
            :: (r2.trace ++ [Ev.disableAT])⟩

/-- Scanning check that no disable-toggle event occurs before the first
enable-toggle event of a trace: a disableAT met before any enableAT makes
it false; once an enableAT is seen every later disableAT is preceded by it. -/
def noUnmatchedDisable : List Ev → Bool
  | [] => true
  | Ev.disableAT :: _ => false
  | Ev.enableAT :: _ => true
  | _ :: rest => noUnmatchedDisable rest

/-- Every event of an order-send round is an order send carrying the
round's request price. -/
theorem tirano_trace_sends (env : Env) (k : ℕ) (p : ℚ) :
    ∀ e ∈ (orderSendTirano env k p).trace,
      ∃ f d, e = Ev.send p f d := by
  unfold orderSendTirano
  dsimp only
  split_ifs <;> intro e he <;> fin_cases he <;> exact ⟨_, _, rfl⟩

/-- An order-send round makes at most 4 order sends. -/
theorem tirano_trace_len (env : Env) (k : ℕ) (p : ℚ) :
    (orderSendTirano env k p).trace.length ≤ 4 := by
  unfold orderSendTirano
  dsimp only
  split_ifs <;> simp

/-- Toggle events never occur inside an order-send round. -/
theorem tirano_no_toggle (env : Env) (k : ℕ) (p : ℚ) :
    Ev.enableAT ∉ (orderSendTirano env k p).trace ∧
    Ev.disableAT ∉ (orderSendTirano env k p).trace := by
  constructor <;> intro hmem <;>
    rcases tirano_trace_sends env k p _ hmem with ⟨f, d, h⟩ <;> exact Ev.noConfusion h

/-- A block of fetch and send events does not affect the unmatched-disable
scan. -/
theorem noUnmatchedDisable_append (l rest : List Ev)
    (h : ∀ e ∈ l, e ≠ Ev.enableAT ∧ e ≠ Ev.disableAT) :
    noUnmatchedDisable (l ++ rest) = noUnmatchedDisable rest := by
  induction l with
  | nil => rfl
  | cons e t ih =>
    have he := h e (List.mem_cons_self e t)
    have ht : ∀ e ∈ t, e ≠ Ev.enableAT ∧ e ≠ Ev.disableAT :=
      fun x hx => h x (List.mem_cons_of_mem e hx)
    cases e with
    | fetch p => simpa [noUnmatchedDisable] using ih ht
    | send p f d => simpa [noUnmatchedDisable] using ih ht
    | enableAT => exact absurd rfl he.1
    | disableAT => exact absurd rfl he.2

/-- A list of fetch and send events passes the unmatched-disable scan. -/
theorem noUnmatchedDisable_of_plain (l : List Ev)
    (h : ∀ e ∈ l, e ≠ Ev.enableAT ∧ e ≠ Ev.disableAT) :
    noUnmatchedDisable l = true := by
  simpa using noUnmatchedDisable_append l [] h

/-- Events of an order-send round are neither toggle event. -/
theorem tirano_trace_plain (env : Env) (k : ℕ) (p : ℚ) :
    ∀ e ∈ (orderSendTirano env k p).trace,
      e ≠ Ev.enableAT ∧ e ≠ Ev.disableAT := by
  intro e he
  rcases tirano_trace_sends env k p e he with ⟨f, d, rfl⟩
  exact ⟨fun h => Ev.noConfusion h, fun h => Ev.noConfusion h⟩

/-- In every invocation of the closer, whatever the environment does, no
disable-toggle call occurs without a preceding enable-toggle call. -/
theorem close_no_unmatched_disable (env : Env) :
    noUnmatchedDisable (close_position_full env).trace = true := by
  unfold close_position_full
  by_cases hs : env.symbolOk = false
  · rw [if_pos hs]; rfl
  · rw [if_neg hs]
    cases hp0 : env.price 0 with
    | none => rfl
    | some p1 =>
      have hplain : ∀ e ∈ Ev.fetch (some p1) :: (orderSendTirano env 0 p1).trace,
          e ≠ Ev.enableAT ∧ e ≠ Ev.disableAT := by
        intro e he
        rcases List.mem_cons.mp he with rfl | hmem
        · exact ⟨fun h => Ev.noConfusion h, fun h => Ev.noConfusion h⟩
        · exact tirano_trace_plain env 0 p1 e hmem
      dsimp only
      split_ifs with h1 h2
      · exact noUnmatchedDisable_of_plain _ hplain
      · exact noUnmatchedDisable_of_plain _ hplain
      · cases hp1 : env.price 1 with
        | none =>
          dsimp only
          rw [noUnmatchedDisable_append _ _ hplain]
          rfl
        | some p2 =>
          dsimp only
          rw [noUnmatchedDisable_append _ _ hplain]
          rfl

/-- Shape of the closer's collaborator-call trace on the escalation path:
when the symbol is available, the first price fetch succeeds, the direct
round fails, its payload indicates AutoTrading-disabled, and the retry
round's price fetch succeeds, the trace is exactly the direct round's fetch
and sends, then the enable toggle, then the retry round's fetch and sends,
then the disable toggle. -/
theorem close_escalation_trace (env : Env) (p1 p2 : ℚ)
    (hsym : env.symbolOk = true)
    (hp1 : env.price 0 = some p1)
    (hfail : (orderSendTirano env 0 p1).ok = false)
    (hdis : isAutotradingDisabled (orderSendTirano env 0 p1).payload = true)
    (hp2 : env.price 1 = some p2) :
    (close_position_full env).trace
      = Ev.fetch (some p1) :: (orderSendTirano env 0 p1).trace
        ++ Ev.enableAT :: Ev.fetch (some p2)
          :: ((orderSendTirano env 4 p2).trace ++ [Ev.disableAT]) := by
  unfold close_position_full
  rw [hsym, hp1]
  dsimp only
  rw [hfail, hdis, hp2]
  rfl

/-- C1 (corrected): under the claim's hypothesis - direct attempts failed
and the failure payload indicates the automated-execution switch is
disabled - and provided the retry round's price re-fetch succeeds, the
collaborator-call sequence of Close is: the direct attempts (at most 4
order sends), then one enable-toggle call, then one retry round of at most
4 order sends, then one disable-toggle call regardless of the retry's
outcome; and in every invocation, whatever the environment does, no
disable-toggle call occurs without a preceding enable-toggle call.  (The
unamended claim fails when the retry round's price fetch raises: see the
counterexample.) -/
theorem closer_escalation_sequence (env : Env) (p1 p2 : ℚ)
    (hsym : env.symbolOk = true)
    (hp1 : env.price 0 = some p1)
    (hfail : (orderSendTirano env 0 p1).ok = false)
    (hdis : isAutotradingDisabled (orderSendTirano env 0 p1).payload = true)
    (hp2 : env.price 1 = some p2) :
    (close_position_full env).trace
      = Ev.fetch (some p1) :: (orderSendTirano env 0 p1).trace
        ++ Ev.enableAT :: Ev.fetch (some p2)
          :: ((orderSendTirano env 4 p2).trace ++ [Ev.disableAT]) ∧
    (orderSendTirano env 0 p1).trace.length ≤ 4 ∧
    (orderSendTirano env 4 p2).trace.length ≤ 4 ∧
    (∀ env' : Env, noUnmatchedDisable (close_position_full env').trace = true) :=
  ⟨close_escalation_trace env p1 p2 hsym hp1 hfail hdis hp2,
   tirano_trace_len env 0 p1, tirano_trace_len env 4 p2,
   close_no_unmatched_disable⟩

/-- Environment refuting the unamended C1: the symbol is available, the
first tick quote is 100, every order_send fails with retcode 10027
(AutoTrading disabled), and the second tick fetch - the one made for the
toggled retry - finds no tick, so _get_market_price raises and the outer
except returns before ensure_autotrading_off is reached. -/
def envC1 : Env where
  symbolOk := true
  price := fun n => if n = 0 then some 100 else none
  send := fun _ => some ⟨10027, ""⟩
  lastErr := fun _ => 0

/-- Counterexample to C1 as stated: in this invocation the direct attempts
fail, the failure payload indicates the automated-execution switch is
disabled (retcode 10027), the enable-toggle call occurs - yet no
disable-toggle call ever occurs, because the retry round's price re-fetch
finds no tick and the raised exception aborts the invocation. -/
theorem closer_missing_disable_counterexample :
    (orderSendTirano envC1 0 100).ok = false ∧
    isAutotradingDisabled (orderSendTirano envC1 0 100).payload = true ∧
    Ev.enableAT ∈ (close_position_full envC1).trace ∧
    Ev.disableAT ∉ (close_position_full envC1).trace ∧
    (close_position_full envC1).ok = false := by
  decide

/-- Witness for C1 at a concrete environment: quotes 50 then 60, the four
direct sends fail with retcode 10027, the retry round's first send
succeeds; the trace is the direct fetch and 4 sends, enable toggle, retry
fetch and 1 send, disable toggle. -/
def envW1 : Env where
  symbolOk := true
  price := fun n => if n = 0 then some 50 else some 60
  send := fun n => if n < 4 then some ⟨10027, ""⟩ else some ⟨10009, ""⟩
  lastErr := fun _ => 0

theorem closer_escalation_sequence_witness :
    (orderSendTirano envW1 0 50).ok = false ∧
    isAutotradingDisabled (orderSendTirano envW1 0 50).payload = true ∧
    (close_position_full envW1).trace
      = [Ev.fetch (some 50), Ev.send 50 Filling.ioc 50, Ev.send 50 Filling.ioc 50,
         Ev.send 50 Filling.ioc 50, Ev.send 50 Filling.fok 9999, Ev.enableAT,
         Ev.fetch (some 60), Ev.send 60 Filling.ioc 50, Ev.disableAT] := by
  refine ⟨by decide, by decide, ?_⟩
  exact (closer_escalation_sequence envW1 50 60 (by decide) (by decide)
    (by decide) (by decide) (by decide)).1.trans (by decide)

/-- C2 (corrected): a fresh market price is fetched immediately before each
round of sends - once before the direct round and once before the toggled
retry round - and every send of a round carries that round's quote in its
request, so the retry round never reuses the direct round's quote.  (The
unamended claim - a fresh price before every individual send - fails: see
the counterexample.) -/
theorem closer_price_fixed_per_round (env : Env) (p1 p2 : ℚ)
    (hsym : env.symbolOk = true)
    (hp1 : env.price 0 = some p1)
    (hfail : (orderSendTirano env 0 p1).ok = false)
    (hdis : isAutotradingDisabled (orderSendTirano env 0 p1).payload = true)
    (hp2 : env.price 1 = some p2) :
    (close_position_full env).trace
      = Ev.fetch (some p1) :: (orderSendTirano env 0 p1).trace
        ++ Ev.enableAT :: Ev.fetch (some p2)
          :: ((orderSendTirano env 4 p2).trace ++ [Ev.disableAT]) ∧
    (∀ e ∈ (orderSendTirano env 0 p1).trace, ∃ f d, e = Ev.send p1 f d) ∧
    (∀ e ∈ (orderSendTirano env 4 p2).trace, ∃ f d, e = Ev.send p2 f d) :=
  ⟨close_escalation_trace env p1 p2 hsym hp1 hfail hdis hp2,
   tirano_trace_sends env 0 p1, tirano_trace_sends env 4 p2⟩

/-- Environment refuting the unamended C2: quotes move from 100 to 101
between sends, and every order_send fails with a retcode (10013) that does
not indicate AutoTrading-disabled, so the invocation stays in the direct
round. -/
def envC2 : Env where
  symbolOk := true
  price := fun n => if n = 0 then some 100 else some 101
  send := fun _ => some ⟨10013, "requote"⟩
  lastErr := fun _ => 0

/-- Counterexample to C2 as stated: the direct round makes 4 order sends
but only one price fetch, and all 4 sends carry the price 100 quoted before
the first send, although a fresh quote before the later sends would have
returned 101 - so the second, third and fourth sends reuse a quote obtained
for an earlier send. -/
theorem closer_price_reuse_counterexample :
    (close_position_full envC2).trace
      = [Ev.fetch (some 100), Ev.send 100 Filling.ioc 50, Ev.send 100 Filling.ioc 50,
         Ev.send 100 Filling.ioc 50, Ev.send 100 Filling.fok 9999] ∧
    envC2.price 1 = some 101 ∧ ((100 : ℚ) = 101 → False) := by
  decide

/-- Witness for C2 at a concrete environment: quotes 70 then 80, direct
sends fail with retcode 10028, retry round fails throughout; every direct
send carries 70 and every retry send carries 80. -/
def envW2 : Env where
  symbolOk := true
  price := fun n => if n = 0 then some 70 else some 80
  send := fun _ => some ⟨10028, ""⟩
  lastErr := fun _ => 0

theorem closer_price_fixed_per_round_witness :
    (orderSendTirano envW2 0 70).ok = false ∧
    isAutotradingDisabled (orderSendTirano envW2 0 70).payload = true ∧
    (close_position_full envW2).trace
      = [Ev.fetch (some 70), Ev.send 70 Filling.ioc 50, Ev.send 70 Filling.ioc 50,
         Ev.send 70 Filling.ioc 50, Ev.send 70 Filling.fok 9999, Ev.enableAT,
         Ev.fetch (some 80), Ev.send 80 Filling.ioc 50, Ev.send 80 Filling.ioc 50,
         Ev.send 80 Filling.ioc 50, Ev.send 80 Filling.fok 9999, Ev.disableAT] := by
  refine ⟨by decide, by decide, ?_⟩
  exact (closer_price_fixed_per_round envW2 70 80 (by decide) (by decide)
    (by decide) (by decide) (by decide)).1.trans (by decide)

/-! ## Drawdown Kill Switch - limits/dd_kill.py

Timestamps are rationals measured in days, so the cooldown is now plus
cooldown_days and the 24-hour kill re-arm horizon is now plus 1.  The
persisted dict .riskguard_dd.json becomes DDState with Option fields for
keys that may be absent.  kill_switch.set_kill_until calls are recorded in
killSetCalls and kill_switch.kill_status().active is the killActive input;
close_position_full is the closeOk oracle, and the tickets for which it is
invoked are recorded in closeCalls. -/

/-- Persisted drawdown state (file .riskguard_dd.json). -/
structure DDState where
  accountLogin : Option ℤ
  accountServer : Option String
  trackingStartedAt : Option ℚ
  baselineEquity : Option ℚ
  peakEquity : Option ℚ
  awaitingUnlock : Bool
  cooldownUntil : Option ℚ
  lastTripAt : Option ℚ
  twofaSha256 : Option String
  ddLimitPct : Option ℚ
deriving DecidableEq

/-- The empty persisted dict (no state file yet). -/
def DDState.empty : DDState :=
  ⟨none, none, none, none, none, false, none, none, none, none⟩

/-- A position as read by the drawdown close loop: ticket, symbol, volume,
side. -/
structure DPos where
  ticket : ℤ
  symbol : String
  volume : ℚ
  side : String
deriving DecidableEq

/-- Report dict of enforce_drawdown (the fields the claims mention). -/
structure DDReport where
  equity : ℚ
  peakEquity : ℚ
  ddPct : ℚ
  cooldownUntil : Option ℚ
  inCooldown : Bool
  awaitingUnlock : Bool
  tripped : Bool
  trippedNow : Bool
  trackingInitialized : Bool
  closed : List ℤ
  failed : List ℤ
deriving DecidableEq

/-- Outcome of one enforce_drawdown call: report, persisted state after the
call, tickets passed to close_position_full, and the arguments of the
set_kill_until calls made. -/
structure DDOutcome where
  report : DDReport
  state : DDState
  closeCalls : List ℤ
  killSetCalls : List ℚ
deriving DecidableEq

/-- Whether a stored cooldown timestamp is strictly in the future
(dd_kill.py line 244). -/
def ddInCooldown (now : ℚ) (cu : Option ℚ) : Bool :=
  match cu with
  | some t => decide (now < t)
  | none => false

/-- Reinitialization condition of dd_kill.py line 221: the stored login
differs from the snapshot login, or tracking has not started. -/
def ddReinitCond (login : Option ℤ) (st : DDState) : Prop :=
  st.accountLogin ≠ login ∨ st.trackingStartedAt = none

instance (login : Option ℤ) (st : DDState) : Decidable (ddReinitCond login st) := by
  unfold ddReinitCond; infer_instance

/-- Fresh tracking dict written by dd_kill.py lines 222-231: everything is
reset except the stored secret hash. -/
def ddInit (now : ℚ) (login : Option ℤ) (server : Option String)
    (equity : ℚ) (st : DDState) : DDState where
  accountLogin := login
  accountServer := server
  trackingStartedAt := some now
  baselineEquity := some equity
  peakEquity := some equity
  awaitingUnlock := false
  cooldownUntil := none
  lastTripAt := none
  twofaSha256 := st.twofaSha256
  ddLimitPct := none

/-- State at dd_kill.py line 233: reinitialized when the login changed or
tracking had not started, otherwise the loaded state. -/
def ddEffState (now : ℚ) (login : Option ℤ) (server : Option String)
    (equity : ℚ) (st : DDState) : DDState :=
  if ddReinitCond login st then ddInit now login server equity st else st

/-- Peak sanitation of dd_kill.py lines 233-235: a missing, non-numeric or
non-positive stored peak is replaced by the current equity. -/
def ddPeakBase (equity : ℚ) (s : DDState) : ℚ :=
  match s.peakEquity with
  | some p => if p ≤ 0 then equity else p
  | none => equity

/-- Peak after the update of dd_kill.py lines 254-256: raised to the
current equity only outside cooldown and only on a new maximum. -/
def ddPeak (now equity : ℚ) (s : DDState) : ℚ :=
  if ¬ ddInCooldown now s.cooldownUntil = true ∧ ddPeakBase equity s < equity
  then equity else ddPeakBase equity s

/-- Drawdown percentage of dd_kill.py line 258. -/
def ddPctOf (peak equity : ℚ) : ℚ :=
  if peak ≤ 0 then 0 else max 0 ((peak - equity) / peak * 100)

/-- Clearing of an expired or invalid stored cooldown, dd_kill.py lines
247-252. -/
def ddClearExpired (now : ℚ) (s : DDState) : DDState :=
  if s.cooldownUntil ≠ none ∧ ¬ ddInCooldown now s.cooldownUntil = true
  then { s with cooldownUntil := none } else s

/-- Intermediate result of the trip / no-trip branch of enforce_drawdown. -/
structure DDBranch where
  st : DDState
  repCooldown : Option ℚ
  trippedNow : Bool
  closed : List ℤ
  failed : List ℤ
  closeCalls : List ℤ
  kills : List ℚ

/-- Embedding of dd_kill.py enforce_drawdown (lines 198-356).  Inputs: the
wall-clock time, the snapshot's login/server/equity/positions, the dd limit
and cooldown length, the current kill_status().active flag, the
close_position_full success oracle, and the loaded state.  Steps, in source
order: re-initialize tracking on login change or first observation (keeping
the secret hash); sanitize the stored peak; determine and clear an expired
cooldown; raise the peak only outside cooldown; compute dd_pct; then either
trip (close every position with positive volume - a non-positive volume
raises and lands in failed - set the kill switch until now plus
cooldown_days, record the cooldown and awaiting_unlock), or, when already
in cooldown or awaiting unlock, do nothing except re-arm the kill switch
for 24 hours when it went inactive while awaiting unlock; the no-trip
branch likewise re-arms while awaiting unlock and clears the report
cooldown.  Finally the computed peak and dd limit are persisted. -/
def enforce_drawdown (now : ℚ) (login : Option ℤ) (server : Option String)
    (equity : ℚ) (positions : List DPos) (ddLimitPct cooldownDays : ℚ)
    (killActive : Bool) (closeOk : ℤ → Bool) (st : DDState) : DDOutcome :=
  let st1 := ddEffState now login server equity st
  let inCooldown := ddInCooldown now st1.cooldownUntil
  let st2 := ddClearExpired now st1
  let cooldownIso : Option ℚ := if inCooldown = true then st1.cooldownUntil else none
  let peak := ddPeak now equity st1
  let ddPct := ddPctOf peak equity
  let awaiting := st2.awaitingUnlock
  let tripped := decide (ddLimitPct - 1 / 1000000000 ≤ ddPct)
  let branch : DDBranch :=
    if tripped = true then
      if inCooldown = false ∧ awaiting = false then
        let callsTo := (positions.filter (fun p => decide (0 < p.volume))).map DPos.ticket
        let closedL := (positions.filter
          (fun p => decide (0 < p.volume) && closeOk p.ticket)).map DPos.ticket
        let failedL := (positions.filter
          (fun p => !(decide (0 < p.volume) && closeOk p.ticket))).map DPos.ticket
        let until_ := now + cooldownDays
        ⟨{ st2 with
            lastTripAt := some now
            awaitingUnlock := true
            cooldownUntil := some until_ },
         some until_, true, closedL, failedL, callsTo, [until_]⟩
      else
        let kills := if awaiting = true ∧ inCooldown = false ∧ killActive = false
          then [now + 1] else []
        ⟨st2, cooldownIso, false, [], [], [], kills⟩
    else
      if inCooldown = false ∧ awaiting = true then
        let kills := if killActive = false then [now + 1] else []
        ⟨{ st2 with cooldownUntil := none }, none, false, [], [], [], kills⟩
      else if cooldownIso ≠ none then
        if (match cooldownIso with | some cu => decide (cu ≤ now) | none => true) = true
        then ⟨{ st2 with cooldownUntil := none }, none, false, [], [], [], []⟩
        else ⟨st2, cooldownIso, false, [], [], [], []⟩
      else ⟨st2, cooldownIso, false, [], [], [], []⟩
  ⟨{ equity := equity, peakEquity := peak, ddPct := ddPct,
     cooldownUntil := branch.repCooldown, inCooldown := inCooldown,
     awaitingUnlock := awaiting, tripped := tripped,
     trippedNow := branch.trippedNow,
     trackingInitialized := decide (ddReinitCond login st),
     closed := branch.closed, failed := branch.failed },
   { branch.st with peakEquity := some peak, ddLimitPct := some ddLimitPct },
   branch.closeCalls, branch.kills⟩

/-- Report dict of unlock_with_pin. -/
structure UnlockRep where
  ok : Bool
  reason : String
deriving DecidableEq

/-- Embedding of dd_kill.py unlock_with_pin (lines 126-149).  The hash
function _sha (sha-256 of the utf-8 pin, line 113-114) is library code
outside this repository and is passed as the parameter sha.  With no stored
hash, or a pin whose hash differs from the stored hash, the call returns ok
false and does not save, leaving the persisted state untouched; otherwise
it clears awaiting_unlock, deletes the stored cooldown if it is not in the
future, and saves. -/
def unlock_with_pin (sha : String → String) (now : ℚ) (pin : String)
    (st : DDState) : UnlockRep × DDState :=
  match st.twofaSha256 with
  | none => (⟨false, "PIN inválido ou 2FA não configurado."⟩, st)
  | some want =>
    if sha pin == want then
      let st1 := { st with awaitingUnlock := false }
      let st2 := match st1.cooldownUntil with
        | some cu => if now ≥ cu then { st1 with cooldownUntil := none } else st1
        | none => st1
      (⟨true, "Desbloqueado."⟩, st2)
    else (⟨false, "PIN inválido ou 2FA não configurado."⟩, st)

/-- Clearing an expired cooldown does not change awaiting_unlock. -/
theorem ddClearExpired_awaiting (now : ℚ) (s : DDState) :
    (ddClearExpired now s).awaitingUnlock = s.awaitingUnlock := by
  unfold ddClearExpired
  split_ifs <;> rfl

/-- After clearing, the stored cooldown is the old one while still active
and none otherwise. -/
theorem ddClearExpired_cooldown (now : ℚ) (s : DDState) :
    (ddClearExpired now s).cooldownUntil
      = (if ddInCooldown now s.cooldownUntil = true then s.cooldownUntil else none) := by
  unfold ddClearExpired
  split_ifs with h1 h2 h3
  · exact absurd h2 h1.2
  · rfl
  · rfl
  · push_neg at h1
    rcases hcu : s.cooldownUntil with _ | cu
    · rfl
    · exact absurd (h1 (by rw [hcu]; simp)) h3

/-- C5 (corrected): on a call that does not re-initialize tracking (same
login, tracking already started), provided the stored peak is positive (as
it is on any trajectory of positive equities), the persisted peak_equity
never decreases, and while a cooldown is active it is not changed at all by
any equity excursion.  (The unamended claim - for any equity trajectory -
fails because a non-positive stored peak is replaced by the current equity,
which can be smaller: see the counterexample.) -/
theorem dd_peak_monotone (now : ℚ) (login : Option ℤ) (server : Option String)
    (equity : ℚ) (positions : List DPos) (ddLimitPct cooldownDays : ℚ)
    (killActive : Bool) (closeOk : ℤ → Bool) (st : DDState) (p : ℚ)
    (hlogin : st.accountLogin = login)
    (htrack : st.trackingStartedAt ≠ none)
    (hpeak : st.peakEquity = some p) (hp : 0 < p) :
    ∃ q, (enforce_drawdown now login server equity positions ddLimitPct
        cooldownDays killActive closeOk st).state.peakEquity = some q ∧
      p ≤ q ∧
      (ddInCooldown now st.cooldownUntil = true → q = p) := by
  have hre : ¬ ddReinitCond login st := by
    unfold ddReinitCond
    push_neg
    exact ⟨hlogin, htrack⟩
  have heff : ddEffState now login server equity st = st := by
    unfold ddEffState
    rw [if_neg hre]
  have hbase : ddPeakBase equity st = p := by
    unfold ddPeakBase
    rw [hpeak]
    exact if_neg (not_le.mpr hp)
  have hpe : (enforce_drawdown now login server equity positions ddLimitPct
      cooldownDays killActive closeOk st).state.peakEquity
        = some (ddPeak now equity (ddEffState now login server equity st)) := rfl
  refine ⟨ddPeak now equity st, by rw [hpe, heff], ?_, ?_⟩
  · unfold ddPeak
    rw [hbase]
    split_ifs with h
    · exact le_of_lt h.2
    · exact le_refl p
  · intro hc
    unfold ddPeak
    rw [hbase]
    exact if_neg (by simp [hc])

/-- First call of the C5 counterexample: first observation of login 7 with
equity 0, which initializes the stored peak to 0. -/
def ddC5a : DDOutcome :=
  enforce_drawdown 0 (some 7) (some "srv") 0 [] 20 30 false (fun _ => true)
    DDState.empty

/-- Second call of the C5 counterexample: same login, equity now -5. -/
def ddC5b : DDOutcome :=
  enforce_drawdown 1 (some 7) (some "srv") (-5) [] 20 30 false (fun _ => true)
    ddC5a.state

/-- Counterexample to C5 as stated: on the equity trajectory 0, -5 for one
login, with no cooldown ever active, the persisted peak_equity goes from 0
down to -5 between consecutive enforcement calls - the stored peak 0 is
caught by the non-positive-peak sanitation and replaced by the lower
current equity. -/
theorem dd_peak_decrease_counterexample :
    ddC5a.report.inCooldown = false ∧
    ddC5b.report.inCooldown = false ∧
    ddC5a.state.peakEquity = some 0 ∧
    ddC5b.state.peakEquity = some (-5) ∧
    ((-5 : ℚ) < 0) := by
  have ha : ddC5a.state = ⟨some 7, some "srv", some 0, some 0, some 0, false,
      none, none, none, some 20⟩ := by
    norm_num [ddC5a, enforce_drawdown, ddEffState, ddReinitCond, ddInit,
      ddClearExpired, ddInCooldown, ddPeak, ddPeakBase, ddPctOf, DDState.empty]
  have heff2 : ddEffState 1 (some 7) (some "srv") (-5)
        ⟨some 7, some "srv", some 0, some 0, some 0, false, none, none, none,
          some 20⟩
      = ⟨some 7, some "srv", some 0, some 0, some 0, false, none, none, none,
          some 20⟩ := by
    unfold ddEffState
    rw [if_neg (by simp [ddReinitCond])]
  refine ⟨?_, ?_, ?_, ?_, by norm_num⟩
  · norm_num [ddC5a, enforce_drawdown, ddEffState, ddReinitCond, ddInit,
      ddClearExpired, ddInCooldown, ddPeak, ddPeakBase, ddPctOf, DDState.empty]
  · norm_num [ddC5b, enforce_drawdown, heff2, ha, ddInCooldown]
  · rw [ha]
  · norm_num [ddC5b, enforce_drawdown, heff2, ha, ddInCooldown, ddPeak,
      ddPeakBase]

/-- Witness for C5 at a concrete input: login 7 already tracked with stored
peak 1000, no cooldown, equity 900 - the peak stays 1000. -/
theorem dd_peak_monotone_witness :
    (⟨some 7, some "srv", some 0, some 1000, some 1000, false, none, none,
        none, some 20⟩ : DDState).peakEquity = some 1000 ∧
    (0 : ℚ) < 1000 ∧
    ∃ q, (enforce_drawdown 1 (some 7) (some "srv") 900 [] 20 30 false
        (fun _ => true)
        ⟨some 7, some "srv", some 0, some 1000, some 1000, false, none, none,
          none, some 20⟩).state.peakEquity = some q ∧ (1000 : ℚ) ≤ q := by
  refine ⟨rfl, by norm_num, ?_⟩
  rcases dd_peak_monotone 1 (some 7) (some "srv") 900 [] 20 30 false
      (fun _ => true)
      ⟨some 7, some "srv", some 0, some 1000, some 1000, false, none, none,
        none, some 20⟩ 1000 rfl (by simp) rfl (by norm_num) with ⟨q, hq, hle, _⟩
  exact ⟨q, hq, hle⟩

/-- C6: whenever the drawdown threshold is met by this call (tripped) but
the account is already in cooldown or awaiting unlock, no position-close
call is issued, nothing is reported closed, the trip actions do not run
(tripped_now is false), and the persisted cooldown_until is not extended or
replaced: it keeps its old value while the cooldown is still active and is
merely cleared once expired. -/
theorem dd_trip_actions_run_once (now : ℚ) (login : Option ℤ)
    (server : Option String) (equity : ℚ) (positions : List DPos)
    (ddLimitPct cooldownDays : ℚ) (killActive : Bool) (closeOk : ℤ → Bool)
    (st : DDState)
    (htrip : (enforce_drawdown now login server equity positions ddLimitPct
        cooldownDays killActive closeOk st).report.tripped = true)
    (hblk : (enforce_drawdown now login server equity positions ddLimitPct
        cooldownDays killActive closeOk st).report.inCooldown = true ∨
      (enforce_drawdown now login server equity positions ddLimitPct
        cooldownDays killActive closeOk st).report.awaitingUnlock = true) :
    (enforce_drawdown now login server equity positions ddLimitPct
        cooldownDays killActive closeOk st).closeCalls = [] ∧
    (enforce_drawdown now login server equity positions ddLimitPct
        cooldownDays killActive closeOk st).report.closed = [] ∧
    (enforce_drawdown now login server equity positions ddLimitPct
        cooldownDays killActive closeOk st).report.trippedNow = false ∧
    (enforce_drawdown now login server equity positions ddLimitPct
        cooldownDays killActive closeOk st).state.cooldownUntil
      = (if ddInCooldown now st.cooldownUntil = true then st.cooldownUntil
         else none) := by
  by_cases hre : ddReinitCond login st
  · exfalso
    have h1 : (enforce_drawdown now login server equity positions ddLimitPct
        cooldownDays killActive closeOk st).report.inCooldown
          = ddInCooldown now (ddEffState now login server equity st).cooldownUntil :=
      rfl
    have h2 : (enforce_drawdown now login server equity positions ddLimitPct
        cooldownDays killActive closeOk st).report.awaitingUnlock
          = (ddClearExpired now (ddEffState now login server equity st)).awaitingUnlock :=
      rfl
    have heff : ddEffState now login server equity st
        = ddInit now login server equity st := by
      unfold ddEffState
      rw [if_pos hre]
    rw [h1, heff] at hblk
    rw [h2, heff, ddClearExpired_awaiting] at hblk
    simp [ddInit, ddInCooldown] at hblk
  · have heff : ddEffState now login server equity st = st := by
      unfold ddEffState
      rw [if_neg hre]
    have htrip' : decide (ddLimitPct - 1 / 1000000000
        ≤ ddPctOf (ddPeak now equity (ddEffState now login server equity st))
          equity) = true := htrip
    have hblk' : ddInCooldown now (ddEffState now login server equity st).cooldownUntil
          = true ∨
        (ddClearExpired now (ddEffState now login server equity st)).awaitingUnlock
          = true := hblk
    have hnand : ¬ (ddInCooldown now
          (ddEffState now login server equity st).cooldownUntil = false ∧
        (ddClearExpired now (ddEffState now login server equity st)).awaitingUnlock
          = false) := by
      rcases hblk' with h | h <;> simp [h]
    refine ⟨?_, ?_, ?_, ?_⟩ <;>
      (simp only [enforce_drawdown]
       rw [htrip']
       rw [if_pos rfl]
       rw [if_neg hnand]
       try dsimp only)
    rw [heff, ddClearExpired_cooldown]

/-- Witness for C6 at a concrete input: login 7 tracked with peak 1000, no
active cooldown but awaiting unlock, equity 500 (drawdown 50 percent, above
the 20 percent limit), one open position - the call reports tripped but
closes nothing, does not run the trip actions, and leaves no cooldown. -/
theorem dd_trip_actions_run_once_witness :
    (enforce_drawdown 1 (some 7) (some "srv") 500 [⟨11, "EURUSD", 1, "buy"⟩]
        20 30 false (fun _ => true)
        ⟨some 7, some "srv", some 0, some 1000, some 1000, true, none, none,
          none, none⟩).report.tripped = true ∧
    (enforce_drawdown 1 (some 7) (some "srv") 500 [⟨11, "EURUSD", 1, "buy"⟩]
        20 30 false (fun _ => true)
        ⟨some 7, some "srv", some 0, some 1000, some 1000, true, none, none,
          none, none⟩).report.awaitingUnlock = true ∧
    (enforce_drawdown 1 (some 7) (some "srv") 500 [⟨11, "EURUSD", 1, "buy"⟩]
        20 30 false (fun _ => true)
        ⟨some 7, some "srv", some 0, some 1000, some 1000, true, none, none,
          none, none⟩).closeCalls = [] ∧
    (enforce_drawdown 1 (some 7) (some "srv") 500 [⟨11, "EURUSD", 1, "buy"⟩]
        20 30 false (fun _ => true)
        ⟨some 7, some "srv", some 0, some 1000, some 1000, true, none, none,
          none, none⟩).report.trippedNow = false ∧
    (enforce_drawdown 1 (some 7) (some "srv") 500 [⟨11, "EURUSD", 1, "buy"⟩]
        20 30 false (fun _ => true)
        ⟨some 7, some "srv", some 0, some 1000, some 1000, true, none, none,
          none, none⟩).state.cooldownUntil = none := by
  have heffW : ddEffState 1 (some 7) (some "srv") 500
        ⟨some 7, some "srv", some 0, some 1000, some 1000, true, none, none,
          none, none⟩
      = ⟨some 7, some "srv", some 0, some 1000, some 1000, true, none, none,
          none, none⟩ := by
    unfold ddEffState
    rw [if_neg (by simp [ddReinitCond])]
  have htripW : (enforce_drawdown 1 (some 7) (some "srv") 500
      [⟨11, "EURUSD", 1, "buy"⟩] 20 30 false (fun _ => true)
      ⟨some 7, some "srv", some 0, some 1000, some 1000, true, none, none,
        none, none⟩).report.tripped = true := by
    norm_num [enforce_drawdown, heffW, ddInCooldown, ddClearExpired, ddPeak,
      ddPeakBase, ddPctOf]
  have hawaitW : (enforce_drawdown 1 (some 7) (some "srv") 500
      [⟨11, "EURUSD", 1, "buy"⟩] 20 30 false (fun _ => true)
      ⟨some 7, some "srv", some 0, some 1000, some 1000, true, none, none,
        none, none⟩).report.awaitingUnlock = true := by
    norm_num [enforce_drawdown, heffW, ddClearExpired, ddInCooldown]
  have hmain := dd_trip_actions_run_once 1 (some 7) (some "srv") 500
    [⟨11, "EURUSD", 1, "buy"⟩] 20 30 false (fun _ => true)
    ⟨some 7, some "srv", some 0, some 1000, some 1000, true, none, none,
      none, none⟩ htripW (Or.inr hawaitW)
  refine ⟨htripW, hawaitW, hmain.1, hmain.2.2.1, ?_⟩
  rw [hmain.2.2.2]
  simp [ddInCooldown]

/-- C7: Unlock with the correct secret - one whose hash equals the stored
secret hash - returns ok true and clears awaiting_unlock; with no stored
hash, or with any secret whose hash differs from the stored one, it returns
ok false and returns the persisted drawdown state entirely unchanged. -/
theorem unlock_correctness (sha : String → String) (now : ℚ) (pin : String)
    (st : DDState) :
    (∀ w, st.twofaSha256 = some w → sha pin = w →
      (unlock_with_pin sha now pin st).1.ok = true ∧
      (unlock_with_pin sha now pin st).2.awaitingUnlock = false) ∧
    (st.twofaSha256 = none →
      (unlock_with_pin sha now pin st).1.ok = false ∧
      (unlock_with_pin sha now pin st).2 = st) ∧
    (∀ w, st.twofaSha256 = some w → sha pin ≠ w →
      (unlock_with_pin sha now pin st).1.ok = false ∧
      (unlock_with_pin sha now pin st).2 = st) := by
  refine ⟨?_, ?_, ?_⟩
  · intro w hw hsha
    unfold unlock_with_pin
    rw [hw]
    dsimp only
    rw [hsha, if_pos (beq_self_eq_true w)]
    constructor
    · rfl
    · rcases hcu : st.cooldownUntil with _ | cu
      · rfl
      · dsimp only
        split_ifs <;> rfl
  · intro hw
    unfold unlock_with_pin
    rw [hw]
    exact ⟨rfl, rfl⟩
  · intro w hw hsha
    unfold unlock_with_pin
    rw [hw]
    dsimp only
    rw [if_neg (by simp [hsha])]
    exact ⟨rfl, rfl⟩

/-- Witness for C7 with the hash function that appends a hash mark, stored
hash "1234#", the correct secret "1234" and the wrong secret "9999": the
correct secret unlocks and clears awaiting_unlock, the wrong one is
rejected with the state unchanged. -/
theorem unlock_correctness_witness :
    (unlock_with_pin (fun s => s ++ "#") 0 "1234"
      ⟨some 7, none, some 0, none, some 1000, true, none, none, some "1234#",
        none⟩).1.ok = true ∧
    (unlock_with_pin (fun s => s ++ "#") 0 "1234"
      ⟨some 7, none, some 0, none, some 1000, true, none, none, some "1234#",
        none⟩).2.awaitingUnlock = false ∧
    (unlock_with_pin (fun s => s ++ "#") 0 "9999"
      ⟨some 7, none, some 0, none, some 1000, true, none, none, some "1234#",
        none⟩).1.ok = false ∧
    (unlock_with_pin (fun s => s ++ "#") 0 "9999"
      ⟨some 7, none, some 0, none, some 1000, true, none, none, some "1234#",
        none⟩).2
      = ⟨some 7, none, some 0, none, some 1000, true, none, none, some "1234#",
        none⟩ := by
  have h1 := (unlock_correctness (fun s => s ++ "#") 0 "1234"
    ⟨some 7, none, some 0, none, some 1000, true, none, none, some "1234#",
      none⟩).1 "1234#" rfl rfl
  have h2 := (unlock_correctness (fun s => s ++ "#") 0 "9999"
    ⟨some 7, none, some 0, none, some 1000, true, none, none, some "1234#",
      none⟩).2.2 "1234#" rfl (by decide)
  exact ⟨h1.1, h1.2, h2.1, h2.2⟩

/-! ## Persistence helpers - the save functions of the four state documents

Each save function is embedded as the sequence of file-system operations
its body performs on its document: acquiring and releasing the exclusive
cross-process lock, creating a temporary file, writing the JSON into it,
renaming the temporary file over the document (os.replace), or opening the
document itself for writing and dumping the JSON into it in place. -/

/-- File-system operations performed by a save function. -/
inductive FsOp
  | lockAcquire
  | lockRelease
  | createTemp
  | writeTemp
  | replaceTemp
  | openWrite
  | writeJson
deriving DecidableEq

/-- Embedding of dd_kill.py _save (lines 96-109): under the file lock,
mkstemp, json.dump into the temp file, os.replace over the document. -/
def ddSaveTrace : List FsOp :=
  [FsOp.lockAcquire, FsOp.createTemp, FsOp.writeTemp, FsOp.replaceTemp,
   FsOp.lockRelease]

/-- Embedding of limits.py _save_state (lines 31-33): open the document for
writing and json.dump into it, in place, with no lock. -/
def limitsSaveTrace : List FsOp :=
  [FsOp.openWrite, FsOp.writeJson]

/-- Embedding of per_trade_interactive.py _save_state (lines 106-111): open
the document for writing and json.dump into it, in place, with no lock. -/
def perTradeSaveTrace : List FsOp :=
  [FsOp.openWrite, FsOp.writeJson]

/-- Embedding of guard.py _save_cache (lines 60-65), the breach cache: open
the document for writing and json.dump into it, in place, with no lock. -/
def breachCacheSaveTrace : List FsOp :=
  [FsOp.openWrite, FsOp.writeJson]

/-- Modelled from the spec: an atomic, lock-guarded document write - the
whole write happens between acquiring and releasing the exclusive lock, the
content goes to a temporary file that is renamed over the document, and the
document itself is never opened for in-place writing. -/
def atomicLockedWrite (tr : List FsOp) : Prop :=
  (∃ mid, tr = FsOp.lockAcquire :: mid ++ [FsOp.lockRelease] ∧
    FsOp.replaceTemp ∈ mid) ∧
  FsOp.openWrite ∉ tr

/-- Counterexample to C9 as stated: the aggregate-risk document's save is a
plain in-place rewrite with no lock and no temp-file rename, and so are the
per-trade document's and the breach cache's - three of the four persisted
documents are not written atomically under a lock. -/
theorem save_not_atomic_counterexample :
    ¬ atomicLockedWrite limitsSaveTrace ∧
    ¬ atomicLockedWrite perTradeSaveTrace ∧
    ¬ atomicLockedWrite breachCacheSaveTrace ∧
    limitsSaveTrace = [FsOp.openWrite, FsOp.writeJson] := by
  refine ⟨?_, ?_, ?_, rfl⟩ <;>
    · intro h
      exact h.2 (by decide)

/-- C9 (corrected): of the four persisted state documents, only the
drawdown state is written atomically - to a temp file renamed over the
document - while holding the exclusive cross-process lock; the
aggregate-risk state, the per-trade decision state and the breach cache are
each rewritten in place by a plain open-and-dump with no lock. -/
theorem save_traces_classified :
    atomicLockedWrite ddSaveTrace ∧
    limitsSaveTrace = [FsOp.openWrite, FsOp.writeJson] ∧
    perTradeSaveTrace = [FsOp.openWrite, FsOp.writeJson] ∧
    breachCacheSaveTrace = [FsOp.openWrite, FsOp.writeJson] :=
  ⟨⟨⟨[FsOp.createTemp, FsOp.writeTemp, FsOp.replaceTemp], rfl, by decide⟩,
    by decide⟩, rfl, rfl, rfl⟩

/-! ## Per-Trade Interactive Enforcer - limits/per_trade_interactive.py

The persisted document .rg_pertrade_interactive.json holds the Telegram
polling offset and one entry per ticket in violation; the entries form a
dict keyed by the decimal string of the ticket id, embedded here as an
insertion-ordered association list with integer keys (the keys are written
as str(int(ticket)), so the decimal string determines the integer).  The
Telegram channel is modelled by the injected-messages path of the source
(incoming_messages / incoming_next_offset); modify_position_sltp is the
success oracle modOk, and the modify orders issued are recorded in
modCalls. -/

/-- Per-ticket decision status. -/
inductive PtStatus
  | pending
  | override
  | keep
  | timeout
  | adjustFailed
deriving DecidableEq

/-- Symbol metadata carried by a position (symbol_info sub-dict). -/
structure SymInfo where
  tickSize : Option ℚ
  tickValue : Option ℚ
  point : Option ℚ
  contractSize : Option ℚ
  digits : Option ℤ
deriving DecidableEq

/-- A position as read by the per-trade enforcer. -/
structure PPos where
  ticket : ℤ
  symbol : String
  side : String
  volume : ℚ
  openPrice : ℚ
  currentPrice : Option ℚ
  sl : Option ℚ
  tp : Option ℚ
  riskPct : Option ℚ
  missingSlFlag : Bool
  symbolInfo : SymInfo
deriving DecidableEq

/-- One persisted per-ticket entry.  The adjust_failed_reason of a failed
modify order (str(res) in the source) is abstracted as a fixed marker text,
since the embedding does not carry the broker result dict. -/
structure TickSt where
  ticket : ℤ
  symbol : String
  side : String
  volume : ℚ
  riskPctDetected : Option ℚ
  limitPct : ℚ
  digits : ℤ
  slOriginal : Option ℚ
  tpOriginal : Option ℚ
  status : PtStatus
  promptedAt : ℚ
  deadlineAt : ℚ
  decidedAt : Option ℚ
  slAdjusted : Option ℚ
  adjustedAt : Option ℚ
  promptSent : Bool
  adjustFailedReason : Option String
deriving DecidableEq

/-- Persisted per-trade document: telegram offset and the tickets dict. -/
structure PtState where
  telegramOffset : Option ℤ
  tickets : List (ℤ × TickSt)
deriving DecidableEq

/-- A Telegram message as consumed by the decision poll. -/
structure Msg where
  fromIsBot : Bool
  date : Option ℤ
  text : String
deriving DecidableEq

/-- A modify_position_sltp order: ticket, stop-loss, take-profit, comment. -/
structure ModCall where
  ticket : ℤ
  sl : Option ℚ
  tp : Option ℚ
  comment : String
deriving DecidableEq

/-- Report dict of enforce_per_trade_interactive_sl (ticket lists only). -/
structure PtReport where
  adjusted : List ℤ
  overridden : List ℤ
  kept : List ℤ
  timedOut : List ℤ
  adjustFailed : List ℤ
  pending : List ℤ
deriving DecidableEq

/-- Outcome of one enforcement call: persisted state, modify orders issued,
report. -/
structure PtOutcome where
  state : PtState
  modCalls : List ModCall
  report : PtReport
deriving DecidableEq

/-- Dict lookup: value of the first entry with the given key. -/
def dictGet : List (ℤ × TickSt) → ℤ → Option TickSt
  | [], _ => none
  | p :: rest, k => if p.1 == k then some p.2 else dictGet rest k

/-- Dict update: replace the value in place when the key exists (Python
dicts keep the insertion position), append otherwise. -/
def dictSet : List (ℤ × TickSt) → ℤ → TickSt → List (ℤ × TickSt)
  | [], k, v => [(k, v)]
  | (k', v') :: rest, k, v =>
    if k' == k then (k', v) :: rest else (k', v') :: dictSet rest k v

/-- Truncation toward zero: Python int() applied to a float. -/
def ratTrunc (x : ℚ) : ℤ := if 0 ≤ x then ⌊x⌋ else -⌊-x⌋

/-- Round half to even at integer precision: Python round() on a float
(the embedding rounds the exact rational). -/
def roundHalfEven (x : ℚ) : ℤ :=
  let n := ⌊x⌋
  let f := x - n
  if f < 1 / 2 then n
  else if 1 / 2 < f then n + 1
  else if n % 2 = 0 then n else n + 1

/-- Embedding of per_trade_interactive.py _round_price (lines 124-129):
round the price to the symbol's digit count. -/
def roundPrice (price : ℚ) (digits : ℤ) : ℚ :=
  (roundHalfEven (price * (10 : ℚ) ^ digits) : ℚ) / (10 : ℚ) ^ digits

/-- ASCII whitespace recognized by Python str.strip. -/
def isSpaceChar (c : Char) : Bool :=
  c == ' ' || c == '\t' || c == '\n' || c == '\r'

/-- Python str.strip on the character data of a string. -/
def strStrip (s : String) : List Char :=
  ((s.data.dropWhile isSpaceChar).reverse.dropWhile isSpaceChar).reverse

/-- Common tail of _compute_sl_for_risk: reject a non-positive price
difference, place the stop below the entry for a long and above it for a
short, reject a non-positive level. -/
def computeSlFinish (openPrice : ℚ) (isBuy : Bool) (priceDiff : ℚ) :
    Option ℚ × String :=
  if priceDiff ≤ 0 then (none, "price_diff inválido")
  else
    let sl := if isBuy = true then openPrice - priceDiff
      else openPrice + priceDiff
    if sl ≤ 0 then (none, "SL calculado inválido")
    else (some sl, "")

/-- Embedding of per_trade_interactive.py _compute_sl_for_risk (lines
131-183): a target stop-loss price capping the risk at maxRiskPct of
equity, from tick size/value when available, otherwise from
point/contract-size conventions; data insufficiency is reported as a reason
text. -/
def computeSlForRisk (pos : PPos) (equity maxRiskPct : ℚ) :
    Option ℚ × String :=
  let sideL := pos.side.data.map Char.toLower
  let isBuy := sideL == "buy".data
  let isSell := sideL == "sell".data
  if equity ≤ 0 then (none, "equity inválida")
  else if pos.openPrice ≤ 0 then (none, "open_price inválido")
  else if pos.volume ≤ 0 then (none, "volume inválido")
  else if (isBuy || isSell) = false then (none, "side inválido")
  else
    let riskMoney := equity * maxRiskPct / 100
    if riskMoney ≤ 0 then (none, "risco permitido inválido")
    else
      let tickSize := pos.symbolInfo.tickSize.getD 0
      let tickValue := pos.symbolInfo.tickValue.getD 0
      if 0 < tickSize ∧ 0 < tickValue then
        computeSlFinish pos.openPrice isBuy
          (riskMoney / (tickValue * pos.volume) * tickSize)
      else
        let point := pos.symbolInfo.point.getD 0
        let contractSize := pos.symbolInfo.contractSize.getD 0
        let cpv := pos.currentPrice.getD 0
        let priceRef := if cpv = 0 then pos.openPrice else cpv
        if point ≤ 0 ∨ contractSize ≤ 0 ∨ priceRef ≤ 0 then
          (none, "dados do símbolo insuficientes (tick/point)")
        else
          let pointValue := contractSize * point / priceRef
          if pointValue ≤ 0 then (none, "point_value inválido")
          else
            computeSlFinish pos.openPrice isBuy
              (riskMoney / (pointValue * pos.volume) * point)

/-- Embedding of per_trade_interactive.py _select_pending_ticket (lines
186-198): among the entries with status pending, the one with the greatest
(prompted_at, key) pair.  The source compares the decimal key strings on
prompted_at ties; keys are canonical decimal integers, which the embedding
compares numerically. -/
def selectPending (tickets : List (ℤ × TickSt)) : Option ℤ :=
  let cands := (tickets.filter
    (fun p => decide (p.2.status = PtStatus.pending))).map
    (fun p => (p.2.promptedAt, p.1))
  match cands with
  | [] => none
  | c :: rest =>
    some ((rest.foldl (fun b c' =>
      if b.1 < c'.1 ∨ (b.1 = c'.1 ∧ b.2 < c'.2) then c' else b) c).2)

/-- Embedding of the decision scan of per_trade_interactive.py (lines
267-282): ignore bot messages, ignore messages dated before the prompt
(int(min_ts) - 1, applied only when a date is an int and min_ts is
non-zero), and keep the last stripped text equal to "1" or "2". -/
def scanDecision (minTs : ℚ) (msgs : List Msg) : Option String :=
  msgs.foldl (fun acc m =>
    if m.fromIsBot = true then acc
    else
      let skip := match m.date with
        | some d => decide (minTs ≠ 0) && decide (d < ratTrunc minTs - 1)
        | none => false
      if skip = true then acc
      else if strStrip m.text == "1".data then some "1"
      else if strStrip m.text == "2".data then some "2"
      else acc) none

/-- Timeout transition of one entry (per_trade_interactive.py lines
379-386): a pending entry whose non-zero deadline has passed becomes
timeout; everything else is untouched. -/
def timeoutStep (now : ℚ) (s : TickSt) : TickSt :=
  if s.status = PtStatus.pending ∧ s.deadlineAt ≠ 0 ∧ s.deadlineAt < now
  then { s with status := PtStatus.timeout } else s

/-- Fresh entry recorded on the first detection of a violation
(per_trade_interactive.py lines 433-449). -/
def freshEntry (pos : PPos) (maxRiskPct now timeoutMinutes : ℚ)
    (digitsPos : ℤ) (missingSl : Bool) : TickSt where
  ticket := pos.ticket
  symbol := pos.symbol
  side := pos.side
  volume := pos.volume
  riskPctDetected := pos.riskPct
  limitPct := maxRiskPct
  digits := digitsPos
  slOriginal := if missingSl = true then none else pos.sl
  tpOriginal := pos.tp
  status := PtStatus.pending
  promptedAt := now
  deadlineAt := now + timeoutMinutes * 60
  decidedAt := none
  slAdjusted := none
  adjustedAt := none
  promptSent := false
  adjustFailedReason := none

/-- Accumulator of the adjustment loop over positions. -/
structure PtAcc where
  tickets : List (ℤ × TickSt)
  offset : Option ℤ
  modCalls : List ModCall
  adjusted : List ℤ
  adjustFailed : List ℤ
  pendingSkips : List ℤ
deriving DecidableEq

/-- The digits value used for a position: int(symbol_info digits or 5), so
a missing or zero digit count falls back to 5. -/
def posDigits (pos : PPos) : ℤ :=
  let d0 := pos.symbolInfo.digits.getD 0
  if d0 = 0 then 5 else d0

/-- One iteration of the adjustment loop of per_trade_interactive.py
(lines 409-579) for a single position: skip ticket 0; skip entries with
status override; skip non-violating positions; create the pending entry on
first detection; synchronize the telegram offset before the first prompt;
compute and round the target stop-loss; skip when the live stop-loss is
already within half a point of the target; record adjust_failed (once) when
no valid target exists or the modify order fails; on a successful modify
record the adjusted stop-loss and mark the prompt sent. -/
def adjStep (equity maxRiskPct timeoutMinutes now : ℚ) (nextOffset : Option ℤ)
    (modOk : ℤ → Option ℚ → Bool) (acc : PtAcc) (pos : PPos) : PtAcc :=
  let ticket := pos.ticket
  if ticket = 0 then acc else
  let slNow := pos.sl
  let tpNow := pos.tp
  let missingSl := pos.missingSlFlag || decide (slNow = none)
    || decide (slNow = some 0)
  let stOld := dictGet acc.tickets ticket
  if (match stOld with
      | some s => decide (s.status = PtStatus.override)
      | none => false) = true then acc
  else
  let violates := missingSl || (match pos.riskPct with
    | some r => decide (maxRiskPct + 1 / 1000000000 < r)
    | none => false)
  if violates = false then acc
  else
  let digitsPos := posDigits pos
  let entry0 := match stOld with
    | some s => s
    | none => freshEntry pos maxRiskPct now timeoutMinutes digitsPos missingSl
  let tickets' := match stOld with
    | some _ => acc.tickets
    | none => dictSet acc.tickets ticket entry0
  let offset' := if entry0.promptSent = false ∧ acc.offset = none then
      (match nextOffset with | some o => some o | none => acc.offset)
    else acc.offset
  let slReason := computeSlForRisk pos equity maxRiskPct
  let point := pos.symbolInfo.point.getD 0
  let slTargetRounded := slReason.1.map (fun t => roundPrice t digitsPos)
  let skipNoDrift := match slTargetRounded, slNow with
    | some t, some s =>
      let eps := if 0 < point then point / 2 else 1 / 1000000000
      decide (|s - t| ≤ eps)
    | _, _ => false
  if skipNoDrift = true then
    { acc with
        tickets := tickets'
        offset := offset'
        pendingSkips := acc.pendingSkips ++ [ticket] }
  else
  match slTargetRounded with
  | none =>
    if entry0.status = PtStatus.adjustFailed then
      { acc with tickets := tickets', offset := offset' }
    else
      let entry1 := { entry0 with
        status := PtStatus.adjustFailed
        adjustFailedReason := some slReason.2 }
      { acc with
          tickets := dictSet tickets' ticket entry1
          offset := offset'
          adjustFailed := acc.adjustFailed ++ [ticket] }
  | some t =>
    let call : ModCall := ⟨ticket, some t, tpNow, "RG ajusta SL"⟩
    if modOk ticket (some t) = true then
      let entry1 := { entry0 with
        slAdjusted := some t
        adjustedAt := some now }
      let entry2 := if entry1.promptSent = false then
          { entry1 with promptSent := true } else entry1
      { acc with
          tickets := dictSet tickets' ticket entry2
          offset := offset'
          modCalls := acc.modCalls ++ [call]
          adjusted := acc.adjusted ++ [ticket] }
    else
      if entry0.status = PtStatus.adjustFailed then
        { acc with
            tickets := tickets'
            offset := offset'
            modCalls := acc.modCalls ++ [call] }
      else
        let entry1 := { entry0 with
          status := PtStatus.adjustFailed
          adjustFailedReason := some "modify falhou" }
        { acc with
            tickets := dictSet tickets' ticket entry1
            offset := offset'
            modCalls := acc.modCalls ++ [call]
            adjustFailed := acc.adjustFailed ++ [ticket] }

/-- Outcome of the decision-poll phase: tickets, offset, modify calls,
overridden and kept ticket lists. -/
structure PtPollOut where
  tickets : List (ℤ × TickSt)
  offset : Option ℤ
  modCalls : List ModCall
  overridden : List ℤ
  kept : List ℤ
deriving DecidableEq

/-- Decision-poll phase of per_trade_interactive.py (lines 249-376): only
when a pending entry exists, advance the telegram offset, scan the incoming
messages for the last "1"/"2" newer than the prompt, and apply the decision
to the selected entry: "1" with a recorded original stop-loss issues a
modify order restoring it and transitions to override on success (on
failure the entry stays pending); "1" without an original, and "2",
transition to keep. -/
def pollPhase (now : ℚ) (msgs : List Msg) (nextOffset : Option ℤ)
    (modOk : ℤ → Option ℚ → Bool) (stateOffset : Option ℤ)
    (tickets0 : List (ℤ × TickSt)) : PtPollOut :=
  match selectPending tickets0 with
  | none => ⟨tickets0, stateOffset, [], [], []⟩
  | some tk =>
    match dictGet tickets0 tk with
    | none => ⟨tickets0, stateOffset, [], [], []⟩
    | some st =>
      let offset' := match nextOffset with
        | some o => some o
        | none => stateOffset
      let dec := scanDecision st.promptedAt msgs
      if dec = some "1" then
        match st.slOriginal with
        | none =>
          let st' := { st with status := PtStatus.keep, decidedAt := some now }
          ⟨dictSet tickets0 tk st', offset', [], [], [tk]⟩
        | some slo =>
          let call : ModCall := ⟨tk, some slo, st.tpOriginal,
            "RG override SL original"⟩
          if modOk tk (some slo) = true then
            let st' := { st with
              status := PtStatus.override
              decidedAt := some now }
            ⟨dictSet tickets0 tk st', offset', [call], [tk], []⟩
          else
            ⟨tickets0, offset', [call], [], []⟩
      else if dec = some "2" then
        let st' := { st with status := PtStatus.keep, decidedAt := some now }
        ⟨dictSet tickets0 tk st', offset', [], [], [tk]⟩
      else ⟨tickets0, offset', [], [], []⟩

/-- Embedding of per_trade_interactive.py enforce_per_trade_interactive_sl
(lines 201-590), in source order: prune entries whose tickets left the
snapshot; run the decision poll on the most recent pending entry; time out
pending entries whose deadline passed; run the adjustment loop over the
positions; report all still-pending entries. -/
def enforce_per_trade_interactive_sl (equity : ℚ) (positions : List PPos)
    (maxRiskPct timeoutMinutes now : ℚ) (msgs : List Msg)
    (nextOffset : Option ℤ) (modOk : ℤ → Option ℚ → Bool)
    (state : PtState) : PtOutcome :=
  let openTickets := positions.map PPos.ticket
  let tickets0 := state.tickets.filter (fun p => openTickets.contains p.1)
  let poll := pollPhase now msgs nextOffset modOk state.telegramOffset tickets0
  let timedOutList := (poll.tickets.filter (fun p =>
    decide (p.2.status = PtStatus.pending) && decide (p.2.deadlineAt ≠ 0)
      && decide (p.2.deadlineAt < now))).map Prod.fst
  let tickets2 := poll.tickets.map (fun p => (p.1, timeoutStep now p.2))
  let accF := positions.foldl
    (adjStep equity maxRiskPct timeoutMinutes now nextOffset modOk)
    ⟨tickets2, poll.offset, poll.modCalls, [], [], []⟩
  let pendingFinal := (accF.tickets.filter (fun p =>
    decide (p.2.status = PtStatus.pending))).map Prod.fst
  ⟨⟨accF.offset, accF.tickets⟩, accF.modCalls,
   { adjusted := accF.adjusted
     overridden := poll.overridden
     kept := poll.kept
     timedOut := timedOutList
     adjustFailed := accF.adjustFailed
     pending := accF.pendingSkips ++ pendingFinal }⟩

/-- The ticket keys of a dict, in order. -/
def dictKeys (l : List (ℤ × TickSt)) : List ℤ := l.map Prod.fst

/-- Setting one key leaves lookups of other keys unchanged. -/
theorem dictGet_dictSet_ne (l : List (ℤ × TickSt)) (k t : ℤ) (v : TickSt)
    (h : k ≠ t) : dictGet (dictSet l k v) t = dictGet l t := by
  induction l with
  | nil => simp [dictSet, dictGet, h]
  | cons p rest ih =>
    rcases p with ⟨k', v'⟩
    unfold dictSet
    by_cases hk : (k' == k) = true
    · rw [if_pos hk]
      have hkt : (k' == t) = false := by
        rw [beq_iff_eq] at hk
        simp [hk, h]
      unfold dictGet
      rw [hkt]
      simp
    · rw [if_neg hk]
      unfold dictGet
      by_cases ht : (k' == t) = true
      · simp [ht]
      · simp only [ht]
        simp only [Bool.false_eq_true, if_false]
        exact ih

/-- A successful lookup points at an entry of the dict. -/
theorem dictGet_mem (l : List (ℤ × TickSt)) (k : ℤ) (v : TickSt)
    (h : dictGet l k = some v) : (k, v) ∈ l := by
  induction l with
  | nil => simp [dictGet] at h
  | cons p rest ih =>
    unfold dictGet at h
    by_cases hp : (p.1 == k) = true
    · rw [if_pos hp] at h
      have hk : p.1 = k := by rwa [beq_iff_eq] at hp
      have hpv : p = (k, v) := by
        rcases p with ⟨k', v'⟩
        simp only [Option.some.injEq] at h
        simp only at hk
        rw [hk, h]
      rw [← hpv]
      exact List.mem_cons_self p rest
    · rw [if_neg hp] at h
      exact List.mem_cons_of_mem p (ih h)

/-- With distinct keys, every entry is found by the lookup. -/
theorem dictGet_of_mem_nodup (l : List (ℤ × TickSt)) (k : ℤ) (v : TickSt)
    (hnd : (dictKeys l).Nodup) (hmem : (k, v) ∈ l) :
    dictGet l k = some v := by
  induction l with
  | nil => simp at hmem
  | cons p rest ih =>
    rw [dictKeys, List.map_cons, List.nodup_cons] at hnd
    rcases List.mem_cons.mp hmem with rfl | hmem'
    · unfold dictGet
      simp
    · have hk : (p.1 == k) = false := by
        rw [beq_eq_false_iff_ne]
        intro hk'
        exact hnd.1 (hk' ▸ List.mem_map.mpr ⟨(k, v), hmem', rfl⟩)
      unfold dictGet
      rw [hk]
      simp only [Bool.false_eq_true, if_false]
      exact ih hnd.2 hmem'

/-- Setting a key either keeps the key list or appends the new key. -/
theorem dictKeys_dictSet_cases (l : List (ℤ × TickSt)) (k : ℤ) (v : TickSt) :
    dictKeys (dictSet l k v) = dictKeys l ∨
    dictKeys (dictSet l k v) = dictKeys l ++ [k] := by
  induction l with
  | nil => right; rfl
  | cons p rest ih =>
    rcases p with ⟨k', v'⟩
    unfold dictSet
    by_cases hk : (k' == k) = true
    · left
      rw [if_pos hk]
      rfl
    · rw [if_neg hk]
      rcases ih with he | he
      · left
        show k' :: dictKeys (dictSet rest k v) = k' :: dictKeys rest
        rw [he]
      · right
        show k' :: dictKeys (dictSet rest k v) = (k' :: dictKeys rest) ++ [k]
        rw [he]
        rfl

/-- Setting a key keeps the keys without duplicates. -/
theorem dictKeys_dictSet_nodup (l : List (ℤ × TickSt)) (k : ℤ) (v : TickSt)
    (hnd : (dictKeys l).Nodup) : (dictKeys (dictSet l k v)).Nodup := by
  induction l with
  | nil => simp [dictSet, dictKeys]
  | cons p rest ih =>
    rcases p with ⟨k', v'⟩
    rw [dictKeys, List.map_cons, List.nodup_cons] at hnd
    unfold dictSet
    by_cases hk : (k' == k) = true
    · rw [if_pos hk]
      rw [dictKeys, List.map_cons, List.nodup_cons]
      exact hnd
    · rw [if_neg hk]
      rw [dictKeys, List.map_cons, List.nodup_cons]
      refine ⟨?_, ih hnd.2⟩
      intro hmem
      rcases dictKeys_dictSet_cases rest k v with he | he
      · simp only [dictKeys] at he
        rw [he] at hmem
        exact hnd.1 hmem
      · simp only [dictKeys] at he
        rw [he, List.mem_append] at hmem
        rcases hmem with hmem | hmem
        · exact hnd.1 hmem
        · simp only [List.mem_singleton] at hmem
          simp only [beq_iff_eq] at hk
          exact hk hmem

/-- The result of the maximum-picking fold is one of the candidates. -/
theorem foldl_pick_mem (c : ℚ × ℤ) (rest : List (ℚ × ℤ)) :
    rest.foldl (fun b c' =>
      if b.1 < c'.1 ∨ (b.1 = c'.1 ∧ b.2 < c'.2) then c' else b) c ∈ c :: rest := by
  induction rest generalizing c with
  | nil => exact List.mem_singleton.mpr rfl
  | cons x xs ih =>
    rw [List.foldl_cons]
    have h := ih (if c.1 < x.1 ∨ (c.1 = x.1 ∧ c.2 < x.2) then x else c)
    rcases List.mem_cons.mp h with he | hm
    · rw [he]
      split_ifs
      · exact List.mem_cons_of_mem _ (List.mem_cons_self _ _)
      · exact List.mem_cons_self _ _
    · exact List.mem_cons_of_mem _ (List.mem_cons_of_mem _ hm)

/-- A selected pending ticket really is the key of a pending entry. -/
theorem selectPending_spec (l : List (ℤ × TickSt)) (tk : ℤ)
    (h : selectPending l = some tk) :
    ∃ v, (tk, v) ∈ l ∧ v.status = PtStatus.pending := by
  unfold selectPending at h
  cases hcs : (l.filter (fun p => decide (p.2.status = PtStatus.pending))).map
      (fun p => (p.2.promptedAt, p.1)) with
  | nil =>
    rw [hcs] at h
    simp at h
  | cons c rest =>
    rw [hcs] at h
    simp only [Option.some.injEq] at h
    have hmem := foldl_pick_mem c rest
    rw [← hcs] at hmem
    rcases List.mem_map.mp hmem with ⟨p, hpmem, hpe⟩
    rcases List.mem_filter.mp hpmem with ⟨hpl, hpst⟩
    have hp1 : p.1 = tk := by
      rw [← h, ← hpe]
    refine ⟨p.2, ?_, of_decide_eq_true hpst⟩
    rw [← hp1]
    exact hpl

/-- Lookups commute with mapping the values of a dict. -/
theorem dictGet_mapVal (g : TickSt → TickSt) (l : List (ℤ × TickSt)) (t : ℤ) :
    dictGet (l.map (fun p => (p.1, g p.2))) t = (dictGet l t).map g := by
  induction l with
  | nil => rfl
  | cons p rest ih =>
    rw [List.map_cons]
    unfold dictGet
    by_cases hp : (p.1 == t) = true
    · simp [hp]
    · simp [hp, ih]

/-- Mapping the values of a dict keeps its keys. -/
theorem dictKeys_mapVal (g : TickSt → TickSt) (l : List (ℤ × TickSt)) :
    dictKeys (l.map (fun p => (p.1, g p.2))) = dictKeys l := by
  induction l with
  | nil => rfl
  | cons p rest ih =>
    rw [List.map_cons]
    show _ :: dictKeys (rest.map fun p => (p.1, g p.2)) = _ :: dictKeys rest
    rw [ih]

/-- A kept entry is still found after filtering the dict. -/
theorem dictGet_filter (φ : ℤ × TickSt → Bool) (l : List (ℤ × TickSt))
    (t : ℤ) (s : TickSt) (h : dictGet l t = some s)
    (hφ : φ (t, s) = true) : dictGet (l.filter φ) t = some s := by
  induction l with
  | nil => simp [dictGet] at h
  | cons p rest ih =>
    unfold dictGet at h
    by_cases hp : (p.1 == t) = true
    · rw [if_pos hp] at h
      have hpt : p.1 = t := by rwa [beq_iff_eq] at hp
      have hps : p.2 = s := by
        simpa using h
      have hpe : p = (t, s) := by
        rcases p with ⟨a, b⟩
        simp only at hpt hps
        rw [hpt, hps]
      rw [List.filter_cons, hpe, hφ]
      simp [dictGet]
    · rw [if_neg hp] at h
      rw [List.filter_cons]
      by_cases hφp : φ p = true
      · rw [if_pos hφp]
        unfold dictGet
        rw [if_neg hp]
        exact ih h
      · rw [if_neg hφp]
        exact ih h

/-- Filtering a dict keeps its keys without duplicates. -/
theorem dictKeys_filter_nodup (φ : ℤ × TickSt → Bool)
    (l : List (ℤ × TickSt)) (h : (dictKeys l).Nodup) :
    (dictKeys (l.filter φ)).Nodup := by
  have hsub : ((l.filter φ).map Prod.fst).Sublist (l.map Prod.fst) :=
    (List.filter_sublist l).map Prod.fst
  exact h.sublist hsub

/-- The decision-poll phase never touches an overridden entry and issues no
modify order for its ticket: the selected entry has status pending, so it
has a different key. -/
theorem pollPhase_preserves (now : ℚ) (msgs : List Msg)
    (nextOffset : Option ℤ) (modOk : ℤ → Option ℚ → Bool)
    (stateOffset : Option ℤ) (tickets0 : List (ℤ × TickSt)) (t : ℤ)
    (s : TickSt) (hnd : (dictKeys tickets0).Nodup)
    (hget : dictGet tickets0 t = some s)
    (hst : s.status = PtStatus.override) :
    (dictKeys (pollPhase now msgs nextOffset modOk stateOffset
        tickets0).tickets).Nodup ∧
    dictGet (pollPhase now msgs nextOffset modOk stateOffset
        tickets0).tickets t = some s ∧
    ∀ c ∈ (pollPhase now msgs nextOffset modOk stateOffset
        tickets0).modCalls, c.ticket ≠ t := by
  unfold pollPhase
  cases hsp : selectPending tickets0 with
  | none =>
    dsimp only
    exact ⟨hnd, hget, by simp⟩
  | some tk =>
    dsimp only
    have htkne : tk ≠ t := by
      rcases selectPending_spec tickets0 tk hsp with ⟨v, hvmem, hvst⟩
      intro he
      have hvget := dictGet_of_mem_nodup tickets0 tk v hnd hvmem
      rw [he, hget] at hvget
      have hv : s = v := by simpa using hvget
      rw [← hv, hst] at hvst
      exact PtStatus.noConfusion hvst
    have hpres : ∀ v, dictGet (dictSet tickets0 tk v) t = some s := by
      intro v
      rw [dictGet_dictSet_ne _ _ _ _ htkne]
      exact hget
    have hndp : ∀ v, (dictKeys (dictSet tickets0 tk v)).Nodup := fun v =>
      dictKeys_dictSet_nodup _ _ _ hnd
    have hcallsx : ∀ (c : ModCall), c.ticket = tk →
        ∀ x ∈ [c], x.ticket ≠ t := by
      intro c hc x hx
      rw [List.mem_singleton] at hx
      rw [hx, hc]
      exact htkne
    cases hdg : dictGet tickets0 tk with
    | none =>
      dsimp only
      exact ⟨hnd, hget, by simp⟩
    | some stk =>
      dsimp only
      split_ifs with h1 h2
      · cases hso : stk.slOriginal with
        | none =>
          dsimp only
          exact ⟨hndp _, hpres _, by simp⟩
        | some slo =>
          dsimp only
          split_ifs with h3
          · exact ⟨hndp _, hpres _, hcallsx _ rfl⟩
          · exact ⟨hnd, hget, hcallsx _ rfl⟩
      · exact ⟨hndp _, hpres _, by simp⟩
      · exact ⟨hnd, hget, by simp⟩

set_option maxHeartbeats 1000000 in
/-- One adjustment-loop iteration never touches an overridden entry and
issues no modify order for its ticket: a position with the same ticket hits
the override guard, and a position with a different ticket only writes its
own key. -/
theorem adjStep_preserves (equity maxRiskPct timeoutMinutes now : ℚ)
    (nextOffset : Option ℤ) (modOk : ℤ → Option ℚ → Bool)
    (acc : PtAcc) (pos : PPos) (t : ℤ) (s : TickSt)
    (hnd : (dictKeys acc.tickets).Nodup)
    (hget : dictGet acc.tickets t = some s)
    (hst : s.status = PtStatus.override)
    (hcalls : ∀ c ∈ acc.modCalls, c.ticket ≠ t) :
    (dictKeys (adjStep equity maxRiskPct timeoutMinutes now nextOffset modOk
        acc pos).tickets).Nodup ∧
    dictGet (adjStep equity maxRiskPct timeoutMinutes now nextOffset modOk
        acc pos).tickets t = some s ∧
    ∀ c ∈ (adjStep equity maxRiskPct timeoutMinutes now nextOffset modOk
        acc pos).modCalls, c.ticket ≠ t := by
  unfold adjStep
  by_cases h0 : pos.ticket = 0
  · rw [if_pos h0]
    exact ⟨hnd, hget, hcalls⟩
  rw [if_neg h0]
  by_cases hpt : pos.ticket = t
  · have hguard : (match dictGet acc.tickets pos.ticket with
        | some s' => decide (s'.status = PtStatus.override)
        | none => false) = true := by
      rw [hpt, hget]
      simp [hst]
    rw [if_pos hguard]
    exact ⟨hnd, hget, hcalls⟩
  · have hpres : ∀ (l : List (ℤ × TickSt)) v, dictGet l t = some s →
        dictGet (dictSet l pos.ticket v) t = some s := by
      intro l v hl
      rw [dictGet_dictSet_ne _ _ _ _ hpt]
      exact hl
    have hndp : ∀ (l : List (ℤ × TickSt)) v, (dictKeys l).Nodup →
        (dictKeys (dictSet l pos.ticket v)).Nodup := fun l v h =>
      dictKeys_dictSet_nodup _ _ _ h
    have hcallsx : ∀ (c : ModCall), c.ticket = pos.ticket →
        ∀ x ∈ acc.modCalls ++ [c], x.ticket ≠ t := by
      intro c hc x hx
      rcases List.mem_append.mp hx with hx | hx
      · exact hcalls x hx
      · rw [List.mem_singleton] at hx
        rw [hx, hc]
        exact hpt
    cases hso : dictGet acc.tickets pos.ticket with
    | some s0 =>
      try dsimp only [Option.map]
      cases hsl : (computeSlForRisk pos equity maxRiskPct).1 with
      | none =>
        try dsimp only [Option.map]
        split_ifs <;>
          first
            | exact ⟨hnd, hget, hcalls⟩
            | exact ⟨hndp _ _ hnd, hpres _ _ hget, hcalls⟩
      | some tgt =>
        cases hsn : pos.sl with
        | none =>
          try dsimp only [Option.map]
          split_ifs <;>
            first
              | exact ⟨hnd, hget, hcalls⟩
              | exact ⟨hndp _ _ hnd, hpres _ _ hget, hcalls⟩
              | exact ⟨hndp _ _ hnd, hpres _ _ hget, hcallsx _ rfl⟩
              | exact ⟨hnd, hget, hcallsx _ rfl⟩
        | some slv =>
          try dsimp only [Option.map]
          split_ifs <;>
            first
              | exact ⟨hnd, hget, hcalls⟩
              | exact ⟨hndp _ _ hnd, hpres _ _ hget, hcalls⟩
              | exact ⟨hndp _ _ hnd, hpres _ _ hget, hcallsx _ rfl⟩
              | exact ⟨hnd, hget, hcallsx _ rfl⟩
    | none =>
      try dsimp only [Option.map]
      cases hsl : (computeSlForRisk pos equity maxRiskPct).1 with
      | none =>
        try dsimp only [Option.map]
        split_ifs <;>
          first
            | exact ⟨hnd, hget, hcalls⟩
            | exact ⟨hndp _ _ hnd, hpres _ _ hget, hcalls⟩
            | exact ⟨hndp _ _ (hndp _ _ hnd), hpres _ _ (hpres _ _ hget),
                hcalls⟩
      | some tgt =>
        cases hsn : pos.sl with
        | none =>
          try dsimp only [Option.map]
          split_ifs <;>
            first
              | exact ⟨hnd, hget, hcalls⟩
              | exact ⟨hndp _ _ hnd, hpres _ _ hget, hcalls⟩
              | exact ⟨hndp _ _ hnd, hpres _ _ hget, hcallsx _ rfl⟩
              | exact ⟨hndp _ _ (hndp _ _ hnd), hpres _ _ (hpres _ _ hget),
                  hcallsx _ rfl⟩
        | some slv =>
          try dsimp only [Option.map]
          split_ifs <;>
            first
              | exact ⟨hnd, hget, hcalls⟩
              | exact ⟨hndp _ _ hnd, hpres _ _ hget, hcalls⟩
              | exact ⟨hndp _ _ hnd, hpres _ _ hget, hcallsx _ rfl⟩
              | exact ⟨hndp _ _ (hndp _ _ hnd), hpres _ _ (hpres _ _ hget),
                  hcallsx _ rfl⟩

/-- The whole adjustment loop never touches an overridden entry and issues
no modify order for its ticket. -/
theorem adjLoop_preserves (equity maxRiskPct timeoutMinutes now : ℚ)
    (nextOffset : Option ℤ) (modOk : ℤ → Option ℚ → Bool)
    (positions : List PPos) (acc : PtAcc) (t : ℤ) (s : TickSt)
    (hnd : (dictKeys acc.tickets).Nodup)
    (hget : dictGet acc.tickets t = some s)
    (hst : s.status = PtStatus.override)
    (hcalls : ∀ c ∈ acc.modCalls, c.ticket ≠ t) :
    dictGet (positions.foldl (adjStep equity maxRiskPct timeoutMinutes now
        nextOffset modOk) acc).tickets t = some s ∧
    ∀ c ∈ (positions.foldl (adjStep equity maxRiskPct timeoutMinutes now
        nextOffset modOk) acc).modCalls, c.ticket ≠ t := by
  induction positions generalizing acc with
  | nil => exact ⟨hget, hcalls⟩
  | cons pos rest ih =>
    rw [List.foldl_cons]
    obtain ⟨h1, h2, h3⟩ := adjStep_preserves equity maxRiskPct timeoutMinutes
      now nextOffset modOk acc pos t s hnd hget hst hcalls
    exact ih _ h1 h2 h3

/-- An overridden entry passes the timeout step unchanged. -/
theorem timeoutStep_override (now : ℚ) (s : TickSt)
    (hst : s.status = PtStatus.override) : timeoutStep now s = s := by
  unfold timeoutStep
  rw [if_neg]
  simp [hst]

/-- C8 (corrected): for a ticket whose per-trade state has status override
and which is still present in the snapshot, one Enforce call leaves its
entry entirely unchanged and issues no modify (stop-loss adjustment) order
for it; by induction over calls this holds until the ticket disappears from
the snapshot and its entry is pruned.  (The unamended claim also asserts
this for status keep, but a keep entry is re-adjusted when it violates
again: see the counterexample.) -/
theorem pertrade_override_suppresses_adjustment (equity : ℚ)
    (positions : List PPos) (maxRiskPct timeoutMinutes now : ℚ)
    (msgs : List Msg) (nextOffset : Option ℤ)
    (modOk : ℤ → Option ℚ → Bool) (state : PtState) (t : ℤ) (s : TickSt)
    (hnd : (dictKeys state.tickets).Nodup)
    (hget : dictGet state.tickets t = some s)
    (hst : s.status = PtStatus.override)
    (hmem : t ∈ positions.map PPos.ticket) :
    dictGet (enforce_per_trade_interactive_sl equity positions maxRiskPct
        timeoutMinutes now msgs nextOffset modOk state).state.tickets t
      = some s ∧
    ∀ c ∈ (enforce_per_trade_interactive_sl equity positions maxRiskPct
        timeoutMinutes now msgs nextOffset modOk state).modCalls,
      c.ticket ≠ t := by
  have hcont : ((positions.map PPos.ticket).contains t) = true :=
    List.elem_eq_true_of_mem hmem
  have h0get : dictGet (state.tickets.filter
      (fun p => (positions.map PPos.ticket).contains p.1)) t = some s :=
    dictGet_filter _ _ _ _ hget hcont
  have hnd0 : (dictKeys (state.tickets.filter
      (fun p => (positions.map PPos.ticket).contains p.1))).Nodup :=
    dictKeys_filter_nodup _ _ hnd
  obtain ⟨hnd1, hget1, hcalls1⟩ := pollPhase_preserves now msgs nextOffset
    modOk state.telegramOffset
    (state.tickets.filter (fun p => (positions.map PPos.ticket).contains p.1))
    t s hnd0 h0get hst
  have hget2 : dictGet ((pollPhase now msgs nextOffset modOk
      state.telegramOffset (state.tickets.filter
        (fun p => (positions.map PPos.ticket).contains p.1))).tickets.map
      (fun p => (p.1, timeoutStep now p.2))) t = some s := by
    rw [dictGet_mapVal, hget1]
    dsimp only [Option.map]
    rw [timeoutStep_override now s hst]
  have hnd2 : (dictKeys ((pollPhase now msgs nextOffset modOk
      state.telegramOffset (state.tickets.filter
        (fun p => (positions.map PPos.ticket).contains p.1))).tickets.map
      (fun p => (p.1, timeoutStep now p.2)))).Nodup := by
    rw [dictKeys_mapVal]
    exact hnd1
  obtain ⟨hgetF, hcallsF⟩ := adjLoop_preserves equity maxRiskPct
    timeoutMinutes now nextOffset modOk positions
    ⟨(pollPhase now msgs nextOffset modOk state.telegramOffset
        (state.tickets.filter
          (fun p => (positions.map PPos.ticket).contains p.1))).tickets.map
        (fun p => (p.1, timeoutStep now p.2)),
      (pollPhase now msgs nextOffset modOk state.telegramOffset
        (state.tickets.filter
          (fun p => (positions.map PPos.ticket).contains p.1))).offset,
      (pollPhase now msgs nextOffset modOk state.telegramOffset
        (state.tickets.filter
          (fun p => (positions.map PPos.ticket).contains p.1))).modCalls,
      [], [], []⟩ t s hnd2 hget2 hst hcalls1
  exact ⟨hgetF, hcallsF⟩

/-- Witness data for C8: an entry with status override for ticket 9. -/
def overrideEntryW8 : TickSt :=
  ⟨9, "Y", "buy", 1, some 3, 1, 2, some 120, none, PtStatus.override, 0, 900,
    some 0, some 90, some 0, true, none⟩

/-- Witness data for C8: ticket 9 still open and still violating (risk 3
percent against a 1 percent limit), with full symbol metadata. -/
def posW8 : PPos :=
  ⟨9, "Y", "buy", 1, 100, some 100, some 95, none, some 3, false,
    ⟨some 1, some 1, some 1, some 1, some 2⟩⟩

/-- Witness data for C8: the persisted per-trade state holding only the
override entry. -/
def stateW8 : PtState := ⟨some 1, [(9, overrideEntryW8)]⟩

/-- Witness for C8 at a concrete input: the overridden, still-violating
ticket 9 keeps its entry unchanged and receives no modify order. -/
theorem pertrade_override_suppresses_adjustment_witness :
    (dictGet stateW8.tickets 9).map TickSt.status = some PtStatus.override ∧
    dictGet (enforce_per_trade_interactive_sl 1000 [posW8] 1 15 1 [] none
        (fun _ _ => true) stateW8).state.tickets 9 = some overrideEntryW8 ∧
    ∀ c ∈ (enforce_per_trade_interactive_sl 1000 [posW8] 1 15 1 [] none
        (fun _ _ => true) stateW8).modCalls, c.ticket ≠ 9 := by
  refine ⟨by decide, ?_, ?_⟩
  · exact (pertrade_override_suppresses_adjustment 1000 [posW8] 1 15 1 [] none
      (fun _ _ => true) stateW8 9 overrideEntryW8 (by decide) (by decide) rfl
      (by decide)).1
  · exact (pertrade_override_suppresses_adjustment 1000 [posW8] 1 15 1 [] none
      (fun _ _ => true) stateW8 9 overrideEntryW8 (by decide) (by decide) rfl
      (by decide)).2

/-- Counterexample data for C8: an entry with status keep for ticket 5,
recorded with adjusted stop-loss 90 and prompt already sent. -/
def keepEntryC8 : TickSt :=
  ⟨5, "X", "buy", 1, some 3, 1, 2, some 120, none, PtStatus.keep, 0, 0,
    some 0, some 90, some 0, true, none⟩

/-- Counterexample data for C8: ticket 5 still open, violating again (risk
3 percent against a 1 percent limit), with its live stop-loss drifted to 95
while the computed target is 90. -/
def posC8 : PPos :=
  ⟨5, "X", "buy", 1, 100, some 100, some 95, none, some 3, false,
    ⟨some 1, some 1, some 1, some 1, some 2⟩⟩

/-- Counterexample data for C8: the persisted per-trade state holding only
the keep entry. -/
def stateC8 : PtState := ⟨some 1, [(5, keepEntryC8)]⟩

/-- Counterexample to C8 as stated: ticket 5 has recorded status keep, yet
the next Enforce call issues a further automatic stop-loss adjustment order
for it (modify to the freshly computed target 90) - only status override
suppresses re-adjustment in the source (per_trade_interactive.py line
423). -/
theorem pertrade_keep_readjusts_counterexample :
    (dictGet stateC8.tickets 5).map TickSt.status = some PtStatus.keep ∧
    (enforce_per_trade_interactive_sl 1000 [posC8] 1 15 1 [] none
        (fun _ _ => true) stateC8).modCalls
      = [⟨5, some 90, none, "RG ajusta SL"⟩] := by
  refine ⟨by decide, ?_⟩
  have hfilter : stateC8.tickets.filter
      (fun p => (([posC8].map PPos.ticket)).contains p.1)
      = stateC8.tickets := by decide
  have hsel : selectPending stateC8.tickets = none := by decide
  have htmap : stateC8.tickets.map (fun p => (p.1, timeoutStep 1 p.2))
      = stateC8.tickets := by decide
  have hb : Char.toLower 'b' = 'b' := by decide
  have hu : Char.toLower 'u' = 'u' := by decide
  have hy : Char.toLower 'y' = 'y' := by decide
  have hcomp : computeSlForRisk posC8 1000 1 = (some 90, "") := by
    norm_num [computeSlForRisk, computeSlFinish, posC8, hb, hu, hy]
  have hround : roundPrice 90 2 = 90 := by
    norm_num [roundPrice, roundHalfEven]
  have hdg : dictGet stateC8.tickets 5 = some keepEntryC8 := by decide
  have hpt : posC8.ticket = 5 := rfl
  have hsl : posC8.sl = some 95 := rfl
  have htp : posC8.tp = none := rfl
  have hmf : posC8.missingSlFlag = false := rfl
  have hrp : posC8.riskPct = some 3 := rfl
  have hpoint : posC8.symbolInfo.point = some 1 := rfl
  have hdig : posDigits posC8 = 2 := rfl
  have hstep : (adjStep 1000 1 15 1 none (fun _ _ => true)
      ⟨stateC8.tickets, stateC8.telegramOffset, [], [], [], []⟩ posC8).modCalls
      = [⟨5, some 90, none, "RG ajusta SL"⟩] := by
    unfold adjStep
    rw [hpt]
    norm_num [hdg, hsl, htp, hmf, hrp, hpoint, hdig, hcomp, hround,
      keepEntryC8, eq_false (by decide : ¬ PtStatus.keep = PtStatus.override)]
  have hpoll : pollPhase 1 [] none (fun _ _ => true) stateC8.telegramOffset
      stateC8.tickets
      = ⟨stateC8.tickets, stateC8.telegramOffset, [], [], []⟩ := by
    unfold pollPhase
    rw [hsel]
  unfold enforce_per_trade_interactive_sl
  dsimp only
  rw [hfilter, hpoll]
  dsimp only
  rw [htmap, List.foldl_cons, List.foldl_nil]
  exact hstep

end RiskGuard
